import Mathlib

/-!
Shallow embedding of the KIU LLM Council orchestration engine
(`llm_council/roles.py`, `llm_council/role_planner.py`,
`llm_council/council_engine.py`, `llm_council/persistence.py`)
and proofs about its specified behaviour.

Modelling conventions:
* Python `float` confidences and scores are modelled as `ℚ`.
* Python `dict` values built from lists are modelled as association lists;
  where Python dict-comprehension semantics (last key wins) matters we note it.
* Python `None` becomes `Option`, a raised exception becomes `Option`/`Except`
  at the modelled function boundary.
* Network calls (`client.generate`) are modelled as oracle functions supplied
  as parameters: the orchestration logic never inspects anything but the
  returned reply record.
* `json.loads` and pydantic `model_validate` are external library calls; they
  are modelled as oracle parameters over a `PyVal` value universe, constrained
  by hypotheses that are true of the real library (a decoded JSON object
  literal contains a brace; validation of a schema succeeds only on a dict).
-/

namespace Council

/-- Python str.strip() whitespace set (ASCII part, which is what the repo
feeds it). -/
def pyIsSpace (c : Char) : Bool :=
  c = ' ' || c = '\t' || c = '\n' || c = '\r' || c = '\x0b' || c = '\x0c'

/-- Python str.strip(): drop whitespace from both ends. -/
def pyStrip (s : String) : String :=
  String.mk (((s.data.dropWhile pyIsSpace).reverse.dropWhile pyIsSpace).reverse)

/-- Python regex word characters, as in re.findall applied to a lowered
string in role_planner._normalize_provider. -/
def isWordChar (c : Char) : Bool :=
  c.isAlpha || c.isDigit || c = '_'

/-- Helper for tokenizing: accumulate the current run of word characters. -/
def tokensAux : List Char → List Char → List String
  | [], acc => if acc.isEmpty then [] else [String.mk acc.reverse]
  | c :: cs, acc =>
    if isWordChar c then tokensAux cs (c :: acc)
    else if acc.isEmpty then tokensAux cs []
    else String.mk acc.reverse :: tokensAux cs []

/-- Maximal runs of word characters, as re.findall of the word pattern. -/
def wordTokens (s : String) : List String :=
  tokensAux s.data []

/-- Python s.lower() on the ASCII provider strings the repo uses. -/
def pyLower (s : String) : String :=
  String.mk (s.data.map Char.toLower)

-- JSON extraction (roles.extract_first_json_object)

/-- Scanner loop of roles.extract_first_json_object, lines 69 to 96:
walks characters tracking quoted-string state (with escape awareness) and
brace depth; returns the consumed prefix once depth returns to zero.
`acc` holds consumed characters in reverse. -/
def scanJson : List Char → Int → Bool → Bool → List Char → Option (List Char)
  | [], _, _, _, _ => none
  | c :: rest, depth, inStr, esc, acc =>
    if inStr then
      if esc then scanJson rest depth true false (c :: acc)
      else if c = '\\' then scanJson rest depth true true (c :: acc)
      else if c = '"' then scanJson rest depth false false (c :: acc)
      else scanJson rest depth true false (c :: acc)
    else if c = '"' then scanJson rest depth true false (c :: acc)
    else if c = '{' then scanJson rest (depth + 1) false false (c :: acc)
    else if c = '}' then
      if depth - 1 = 0 then some ((c :: acc).reverse)
      else scanJson rest (depth - 1) false false (c :: acc)
    else scanJson rest depth false false (c :: acc)

/-- roles.extract_first_json_object: extract the first top-level JSON object
from a string; none when the text is empty, has no opening brace, or the
scanned depth never returns to zero. -/
def extract_first_json_object (text : String) : Option String :=
  let cs := text.data.dropWhile (fun c => ¬ (c = '{'))
  match cs with
  | [] => none
  | _ :: _ => (scanJson cs 0 false false []).map String.mk

-- Python value universe for decoded JSON

/-- Values that json.loads can produce. -/
inductive PyVal where
  | null
  | bool (b : Bool)
  | int (n : Int)
  | num (q : ℚ)
  | str (s : String)
  | list (xs : List PyVal)
  | dict (kvs : List (String × PyVal))
deriving Repr

/-- Whether a decoded value is a JSON object (Python dict). -/
def PyVal.isDict : PyVal → Bool
  | .dict _ => true
  | _ => false

-- council_engine.parse_json_with_schema

/-- Second block of council_engine.parse_json_with_schema, lines 55 to 64:
extract the first JSON object, decode and validate it. -/
def parse_second (loads : String → Option PyVal)
    (validate : PyVal → Except String V) (raw_text : String) :
    Option V × Option String :=
  match extract_first_json_object raw_text with
  | none => (none, some "No JSON object found.")
  | some extracted =>
    match loads extracted with
    | none => (none, some "JSON parse error: invalid JSON")
    | some data =>
      match validate data with
      | .ok v => (some v, none)
      | .error e => (none, some ("Schema validation error: " ++ e))

/-- council_engine.parse_json_with_schema, lines 44 to 64, generic over the
schema result type `V`. `loads` models json.loads (none = raised), `validate`
models schema.model_validate (error = raised ValidationError). Returns the
(parsed_or_none, error_or_none) pair; never raises. -/
def parse_json_with_schema (loads : String → Option PyVal)
    (validate : PyVal → Except String V) (raw_text : String) :
    Option V × Option String :=
  match loads raw_text with
  | none => parse_second loads validate raw_text
  | some data =>
    match validate data with
    | .ok v => (some v, none)
    | .error _ => parse_second loads validate raw_text

/-- Whether a string contains an opening brace. -/
def hasBrace (s : String) : Bool :=
  s.data.any (fun c => c = '{')

theorem extract_none_of_no_brace (s : String) (h : hasBrace s = false) :
    extract_first_json_object s = none := by
  unfold extract_first_json_object
  have hdw : s.data.dropWhile (fun c => !(decide (c = '{'))) = [] := by
    rw [List.dropWhile_eq_nil_iff]
    intro x hx
    simp only [hasBrace, List.any_eq_false] at h
    simpa using h x hx
  simp [hdw]

-- Data model (roles.py)

/-- roles.Role. -/
inductive Role where
  | judge
  | solver
deriving DecidableEq, Repr

/-- roles.ModelInfo. -/
structure ModelInfo where
  idx : Int
  provider : String
  model : String
deriving DecidableEq, Repr, Inhabited

/-- roles.RolePreference. -/
structure RolePreference where
  preferred_role : Role
  confidence : ℚ
  reason : String
deriving DecidableEq, Repr

/-- roles.JudgeRecommendation. -/
structure JudgeRecommendation where
  provider : String
  confidence : ℚ
  reason : String
deriving DecidableEq, Repr

/-- roles.RoleOpinion. -/
structure RoleOpinion where
  self : RolePreference
  recommended_judge : JudgeRecommendation
deriving DecidableEq, Repr

/-- roles.RoleOpinionResult. -/
structure RoleOpinionResult where
  provider : String
  model : String
  raw_text : String
  parsed : Option RoleOpinion
  parse_error : Option String
deriving DecidableEq, Repr

/-- types.LLMReply (raw field omitted: it is opaque payload never inspected
by the orchestration logic). -/
structure LLMReply where
  provider : String
  model : String
  text : String
  latency_ms : Int
  error : Option String := none
deriving DecidableEq, Repr

/-- roles.parse_role_opinion, lines 99 to 120: same two-step shape as
parse_json_with_schema but with its own error strings. -/
def parse_role_opinion (loads : String → Option PyVal)
    (validate : PyVal → Except String RoleOpinion) (raw_text : String) :
    Option RoleOpinion × Option String :=
  let second :=
    match extract_first_json_object raw_text with
    | none => (none, some "No JSON object found in model output.")
    | some extracted =>
      match loads extracted with
      | none => (none, some "JSON parse error: invalid JSON")
      | some data =>
        match validate data with
        | .ok v => (some v, none)
        | .error e => (none, some ("JSON schema validation error: " ++ e))
  match loads raw_text with
  | none => second
  | some data =>
    match validate data with
    | .ok v => (some v, none)
    | .error _ => second

-- role_planner.py

/-- role_planner._normalize_provider, lines 41 to 57. -/
def _normalize_provider (raw : String) (allowed : List String) : Option String :=
  if raw = "" then none
  else
    let s := pyStrip raw
    if s ∈ allowed then some s
    else
      match (wordTokens (pyLower s)).find? (fun t => allowed.contains t) with
      | some t => some t
      | none => none

/-- Post-parse normalization block inside role_planner.ask_for_roles,
lines 85 to 95. When normalization fails the source first assigns
parsed = None and then evaluates parsed.recommended_judge.provider inside
the error message f-string, which raises AttributeError; the raise is
modelled as Except.error. -/
def normalizeOpinion (allowed : List String) (parsed0 : Option RoleOpinion)
    (err0 : Option String) : Except String (Option RoleOpinion × Option String) :=
  match parsed0 with
  | none => .ok (none, err0)
  | some op =>
    match _normalize_provider op.recommended_judge.provider allowed with
    | none =>
      .error "AttributeError: NoneType object has no attribute recommended_judge"
    | some norm =>
      if norm = op.recommended_judge.provider then .ok (some op, err0)
      else
        .ok (some { op with
          recommended_judge := { op.recommended_judge with provider := norm } }, err0)

/-- One member of role_planner.ask_for_roles, lines 76 to 103: parse the
reply, normalize the nominated judge provider, build the RoleOpinionResult.
The generate call is absorbed into the supplied reply. -/
def ask_for_roles_member (loads : String → Option PyVal)
    (validate : PyVal → Except String RoleOpinion) (roster : List ModelInfo)
    (reply : LLMReply) (you : ModelInfo) : Except String RoleOpinionResult :=
  let pr := parse_role_opinion loads validate reply.text
  let allowed := roster.map (·.provider)
  match normalizeOpinion allowed pr.1 pr.2 with
  | .error e => .error e
  | .ok (parsed, err) =>
    .ok { provider := you.provider, model := you.model, raw_text := reply.text,
          parsed := parsed,
          parse_error := err.or reply.error }

-- Kernel-computable rational arithmetic.
-- The standard Rat.add / Rat.mul are irreducible in this toolchain, which
-- blocks kernel evaluation of concrete inputs; these wrappers compute with
-- mkRat and are proved equal to the standard operations.

/-- Rational literal n / d in kernel-computable form. -/
def qmk (n : Int) (d : Nat) : ℚ := mkRat n d

/-- Kernel-computable rational addition. -/
def qadd (a b : ℚ) : ℚ := mkRat (a.num * b.den + b.num * a.den) (a.den * b.den)

/-- Kernel-computable rational multiplication. -/
def qmul (a b : ℚ) : ℚ := mkRat (a.num * b.num) (a.den * b.den)

/-- Kernel-computable division of a rational by a natural number. -/
def qdivN (a : ℚ) (n : Nat) : ℚ := mkRat a.num (a.den * n)

theorem qadd_eq (a b : ℚ) : qadd a b = a + b := (Rat.add_def' a b).symm

theorem qmul_eq (a b : ℚ) : qmul a b = a * b := by
  rw [Rat.mul_def, Rat.normalize_eq_mkRat, qmul]

theorem qmk_eq (n : Int) (d : Nat) : qmk n d = (n : ℚ) / (d : ℚ) := by
  rw [qmk, Rat.mkRat_eq_divInt, Rat.divInt_eq_div]
  norm_num

theorem qdivN_eq (a : ℚ) (n : Nat) : qdivN a n = a / (n : ℚ) := by
  rw [qdivN, Rat.mkRat_eq_divInt, Rat.divInt_eq_div]
  push_cast
  rw [div_mul_eq_div_div]
  congr 1
  field_simp

/-- role_planner.DEFAULT_JUDGE_PRIOR. -/
def DEFAULT_JUDGE_PRIOR : List (String × ℚ) :=
  [("openai", 1), ("anthropic", qmk 19 20), ("gemini", qmk 9 10), ("xai", qmk 17 20)]

/-- role_planner.NOMINATION_WEIGHT. -/
def NOMINATION_WEIGHT : ℚ := qmk 7 10

/-- Python dict .get(key, 0.80): dict keys are unique, so plain association
list lookup with default. -/
def priorGet (prior : List (String × ℚ)) (p : String) : ℚ :=
  (prior.lookup p).getD (qmk 4 5)

/-- Python dict lookup where the dict was built by comprehension from a
list of pairs: the LAST occurrence of a key wins. -/
def lastLookup (l : List (String × α)) (k : String) : Option α :=
  l.reverse.lookup k

/-- Entries of role_planner score_breakdown, lines 130 to 137. -/
structure ScoreParts where
  prior : ℚ
  selfScore : ℚ
  nominations : ℚ
deriving DecidableEq, Repr

/-- Self component loop of plan_roles, lines 140 to 148: every roster member
with this provider adds its damped self-claim to breakdown[provider]. -/
def selfComponent (roster : List ModelInfo)
    (opinions : List (String × RoleOpinionResult)) (p : String) : ℚ :=
  (roster.filter (fun m => m.provider = p)).foldl
    (fun acc _ =>
      match (opinions.lookup p).bind (·.parsed) with
      | none => acc
      | some op =>
        qadd acc (qmul
          (if op.self.preferred_role = Role.judge then 1 else qmk 11 20)
          op.self.confidence)) 0

/-- One iteration of the nomination loop of plan_roles, lines 151 to 164:
a roster member whose parsed opinion nominates a roster provider adds
NOMINATION_WEIGHT x confidence x nominator prior to that target. The
nominator itself is NOT excluded. -/
def nomStep (roster : List ModelInfo)
    (opinions : List (String × RoleOpinionResult))
    (prior : List (String × ℚ)) (p : String) (acc : ℚ)
    (nominator : ModelInfo) : ℚ :=
  match (opinions.lookup nominator.provider).bind (·.parsed) with
  | none => acc
  | some op =>
    let target := pyStrip op.recommended_judge.provider
    if target = p ∧ (roster.map (·.provider)).contains target then
      qadd acc (qmul (qmul NOMINATION_WEIGHT op.recommended_judge.confidence)
        (priorGet prior nominator.provider))
    else acc

/-- Nomination component of plan_roles, lines 151 to 164. -/
def nominationComponent (roster : List ModelInfo)
    (opinions : List (String × RoleOpinionResult))
    (prior : List (String × ℚ)) (p : String) : ℚ :=
  roster.foldl (nomStep roster opinions prior p) 0

/-- Resolution of `judge_prior or DEFAULT_JUDGE_PRIOR`: None and the empty
dict are both falsy. -/
def resolvePrior (judge_prior : Option (List (String × ℚ))) : List (String × ℚ) :=
  match judge_prior with
  | none => DEFAULT_JUDGE_PRIOR
  | some [] => DEFAULT_JUDGE_PRIOR
  | some l => l

/-- Breakdown map of plan_roles, lines 130 to 164 (keyed per provider; the
repo rosters have unique providers so map order equals dict order). -/
def score_breakdown_of (roster : List ModelInfo)
    (opinions : List (String × RoleOpinionResult))
    (prior : List (String × ℚ)) : List (String × ScoreParts) :=
  roster.map (fun m => (m.provider,
    { prior := priorGet prior m.provider,
      selfScore := selfComponent roster opinions m.provider,
      nominations := nominationComponent roster opinions prior m.provider }))

/-- Final score formula of plan_roles, line 171. -/
def scoreOf (roster : List ModelInfo)
    (opinions : List (String × RoleOpinionResult))
    (prior : List (String × ℚ)) (m : ModelInfo) : ℚ :=
  qadd
    (qmul (priorGet prior m.provider)
      (qadd (qmk 3 5) (qmul (qmk 2 5) (selfComponent roster opinions m.provider))))
    (nominationComponent roster opinions prior m.provider)

/-- Python max / sorted(reverse=True)[0] over a nonempty list: fold keeping
the current element unless a strictly greater one appears, which returns the
first occurrence of the maximum of a strict order. -/
def pyMax (r : α → α → Prop) [DecidableRel r] (x : α) (xs : List α) : α :=
  xs.foldl (fun best y => if r best y then y else best) x

/-- One step of a flattened lexicographic comparison: strictly less on the
projection f, or equal on f and less according to the rest of the chain. -/
def lexRel [LT β] (f : α → β) (S : α → α → Prop) (a b : α) : Prop :=
  f a < f b ∨ (f a = f b ∧ S a b)

/-- Last step of a lexicographic chain. -/
def baseRel [LT β] (f : α → β) (a b : α) : Prop :=
  f a < f b

instance baseRelDecidable [LT β] [DecidableRel ((· < ·) : β → β → Prop)]
    (f : α → β) : DecidableRel (baseRel f) := fun a b => by
  unfold baseRel
  infer_instance

instance lexRelDecidable [LT β] [DecidableRel ((· < ·) : β → β → Prop)]
    [DecidableEq β] (f : α → β) (S : α → α → Prop) [DecidableRel S] :
    DecidableRel (lexRel f S) := fun a b => by
  unfold lexRel
  exact instDecidableOr

/-- Comparison of the scored tuples (score, (provider, model, idx), provider)
built in plan_roles, lines 167 to 175: Python compares tuples
lexicographically and strings by code points, written here as the flattened
right-nested lexicographic chain. -/
def scoredLt (roster : List ModelInfo)
    (opinions : List (String × RoleOpinionResult))
    (prior : List (String × ℚ)) : ModelInfo → ModelInfo → Prop :=
  lexRel (scoreOf roster opinions prior)
    (lexRel (fun m => m.provider.data)
      (lexRel (fun m => m.model.data)
        (lexRel (fun m => m.idx)
          (baseRel (fun m => m.provider.data)))))

instance scoredLtDecidable (roster : List ModelInfo)
    (opinions : List (String × RoleOpinionResult))
    (prior : List (String × ℚ)) :
    DecidableRel (scoredLt roster opinions prior) := fun a b => by
  unfold scoredLt
  infer_instance

/-- role_planner.SuggestedPlan. -/
structure SuggestedPlan where
  judge : ModelInfo
  solvers : List ModelInfo
  opinions : List (String × RoleOpinionResult)
  score_breakdown : List (String × ScoreParts)
deriving DecidableEq, Repr

/-- role_planner.plan_roles, lines 109 to 184. Returns none when the roster
is empty (the source would raise IndexError on scored[0]). -/
def plan_roles (roster : List ModelInfo)
    (opinions : List (String × RoleOpinionResult))
    (judge_prior : Option (List (String × ℚ))) : Option SuggestedPlan :=
  let prior := resolvePrior judge_prior
  match roster with
  | [] => none
  | m0 :: rest =>
    let judge_provider := (pyMax (scoredLt roster opinions prior) m0 rest).provider
    match lastLookup (roster.map (fun m => (m.provider, m))) judge_provider with
    | none => none
    | some judge =>
      some { judge := judge,
             solvers := roster.filter (fun m => ¬ (m.provider = judge_provider)),
             opinions := opinions,
             score_breakdown := score_breakdown_of roster opinions prior }

/-- role_planner.apply_user_override, lines 187 to 207. The raised
ValueError for an unknown provider is modelled as Except.error. -/
def apply_user_override (plan : SuggestedPlan) (judge_provider : String) :
    Except String SuggestedPlan :=
  if judge_provider = plan.judge.provider then .ok plan
  else
    let roster := plan.judge :: plan.solvers
    match lastLookup (roster.map (fun m => (m.provider, m))) judge_provider with
    | none => .error ("Unknown judge_provider " ++ judge_provider)
    | some new_judge =>
      .ok { plan with
            judge := new_judge,
            solvers := roster.filter (fun m => ¬ (m.provider = judge_provider)) }

-- council_engine.py : schemas, result records, state

/-- council_engine.PeerReviewJSON. -/
structure PeerReviewJSON where
  reviewer_provider : String
  target_provider : String
  correctness : Int
  completeness : Int
  clarity : Int
  feasibility : Int
  overall : Int
  key_flaws : List String
  suggested_fixes : List String
  summary : String
deriving DecidableEq, Repr

/-- council_engine.JudgeDecisionJSON; ranking entries are arbitrary dicts
never inspected by the engine. -/
structure JudgeDecisionJSON where
  winner_provider : String
  ranking : List PyVal
  rationale : String
deriving Repr

/-- council_engine.SolutionResult (raw field omitted: opaque payload). -/
structure SolutionResult where
  provider : String
  model : String
  text : String
  error : Option String := none
deriving DecidableEq, Repr

/-- council_engine.ReviewResult (raw field omitted: opaque payload). -/
structure ReviewResult where
  reviewer_provider : String
  target_provider : String
  raw_text : String
  parsed : Option PeerReviewJSON
  parse_error : Option String
  attempts : Nat := 1
  error : Option String := none
deriving DecidableEq, Repr

/-- council_engine.RevisionResult (raw field omitted: opaque payload). -/
structure RevisionResult where
  provider : String
  model : String
  text : String
  error : Option String := none
deriving DecidableEq, Repr

/-- council_engine.JudgeResult (raw field omitted: opaque payload). -/
structure JudgeResult where
  provider : String
  model : String
  raw_text : String
  parsed : Option JudgeDecisionJSON
  parse_error : Option String
  attempts : Nat := 1
  error : Option String := none
deriving Repr

/-- council_engine.CouncilState. The provider-keyed dicts become
association lists; the repo builds them with unique provider keys. -/
structure CouncilState where
  problem_statement : String
  plan : SuggestedPlan
  drafts : List (String × SolutionResult) := []
  reviews : List ReviewResult := []
  revisions : List (String × RevisionResult) := []
  judge : Option JudgeResult := none
  winner_provider : Option String := none
  winner_text : Option String := none
deriving Repr

-- Phase 2: generate_peer_reviews

/-- One review task of generate_peer_reviews, lines 359 to 429: attempt 1,
one repair attempt on parse failure, identity fields overwritten with ground
truth on success. The generate calls (with their prompts) are absorbed into
the oracle `gen`, indexed by attempt number. -/
def oneReview (gen : Nat → LLMReply) (loads : String → Option PyVal)
    (validate : PyVal → Except String PeerReviewJSON)
    (reviewer target : ModelInfo) : ReviewResult :=
  let rep1 := gen 1
  let p1 := parse_json_with_schema loads validate rep1.text
  match p1.1, p1.2 with
  | some parsed1, none =>
    { reviewer_provider := reviewer.provider, target_provider := target.provider,
      raw_text := rep1.text,
      parsed := some { parsed1 with
                       reviewer_provider := reviewer.provider,
                       target_provider := target.provider },
      parse_error := none, attempts := 1, error := rep1.error }
  | _, _ =>
    let rep2 := gen 2
    let p2 := parse_json_with_schema loads validate rep2.text
    match p2.1, p2.2 with
    | some parsed2, none =>
      { reviewer_provider := reviewer.provider, target_provider := target.provider,
        raw_text := rep2.text,
        parsed := some { parsed2 with
                         reviewer_provider := reviewer.provider,
                         target_provider := target.provider },
        parse_error := none, attempts := 2, error := rep2.error }
    | _, _ =>
      { reviewer_provider := reviewer.provider, target_provider := target.provider,
        raw_text := rep2.text, parsed := none,
        parse_error := p2.2.or p1.2, attempts := 2, error := rep2.error.or rep1.error }

/-- The ordered (reviewer, target) pairs launched by generate_peer_reviews,
lines 431 to 436. -/
def reviewPairs (solvers : List ModelInfo) : List (ModelInfo × ModelInfo) :=
  solvers.flatMap (fun reviewer =>
    (solvers.filter (fun target => ¬ (reviewer.provider = target.provider))).map
      (fun target => (reviewer, target)))

/-- council_engine.generate_peer_reviews, lines 345 to 439. The fan-in
collects results in completion order; the launch-order list modelled here is
a permutation of it, which is all the counting properties need. Raises
(Except.error) when drafts are absent. -/
def generate_peer_reviews (gen : ModelInfo → ModelInfo → Nat → LLMReply)
    (loads : String → Option PyVal)
    (validate : PyVal → Except String PeerReviewJSON)
    (state : CouncilState) : Except String (List ReviewResult) :=
  if state.drafts.isEmpty then
    .error "generate_peer_reviews requires state.drafts. Run generate_drafts first."
  else
    .ok ((reviewPairs state.plan.solvers).map
      (fun rt => oneReview (gen rt.1 rt.2) loads validate rt.1 rt.2))

-- Phase 3: revise_solutions

/-- One revision task of revise_solutions, lines 456 to 473: keep the
stripped reply text, falling back to the original draft when the reply is
empty or whitespace-only. The draft lookup raises KeyError when the solver
has no draft. -/
def reviseOne (gen : ModelInfo → LLMReply) (state : CouncilState)
    (solver : ModelInfo) : Except String RevisionResult :=
  match state.drafts.lookup solver.provider with
  | none => .error "KeyError: no draft for solver"
  | some draft =>
    let rep := gen solver
    let text := if ¬ (pyStrip rep.text = "") then pyStrip rep.text else draft.text
    .ok { provider := solver.provider, model := solver.model, text := text,
          error := rep.error }

/-- Fan-out over a list where any raised exception propagates, as with
asyncio.gather of tasks. -/
def mapE (f : α → Except ε β) : List α → Except ε (List β)
  | [] => .ok []
  | a :: l =>
    match f a with
    | .error e => .error e
    | .ok b =>
      match mapE f l with
      | .error e => .error e
      | .ok bs => .ok (b :: bs)

/-- council_engine.revise_solutions, lines 442 to 478. -/
def revise_solutions (gen : ModelInfo → LLMReply) (state : CouncilState) :
    Except String CouncilState :=
  if state.drafts.isEmpty then
    .error "revise_solutions requires state.drafts. Run generate_drafts first."
  else
    match mapE (reviseOne gen state) state.plan.solvers with
    | .error e => .error e
    | .ok revs => .ok { state with revisions := revs.map (fun r => (r.provider, r)) }

-- Phase 4: judge_solutions

/-- Judge attempt logic of judge_solutions, lines 500 to 537: attempt 1,
one repair attempt when the parse failed, the repair reply kept either
way. -/
def judgeResultOf (gen : Nat → LLMReply) (loads : String → Option PyVal)
    (validate : PyVal → Except String JudgeDecisionJSON)
    (plan : SuggestedPlan) : JudgeResult :=
  let rep1 := gen 1
  let p1 := parse_json_with_schema loads validate rep1.text
  match p1.1, p1.2 with
  | some parsed, none =>
    { provider := plan.judge.provider, model := plan.judge.model,
      raw_text := rep1.text, parsed := some parsed, parse_error := none,
      attempts := 1, error := rep1.error }
  | _, _ =>
    let rep2 := gen 2
    let p2 := parse_json_with_schema loads validate rep2.text
    { provider := plan.judge.provider, model := plan.judge.model,
      raw_text := rep2.text, parsed := p2.1, parse_error := p2.2,
      attempts := 2, error := rep2.error }

/-- Solutions map of judge_solutions, lines 491 to 495: revisions when
non-empty, else drafts. -/
def solutionsOf (state : CouncilState) : List (String × String) :=
  if state.revisions.isEmpty then state.drafts.map (fun pd => (pd.1, pd.2.text))
  else state.revisions.map (fun pr => (pr.1, pr.2.text))

/-- Accumulated overall score for provider p, lines 551 to 557. -/
def sumOverall (reviews : List ReviewResult) (solver_providers : List String)
    (p : String) : ℚ :=
  reviews.foldl (fun acc r =>
    match r.parsed with
    | some pr =>
      if r.target_provider = p ∧ solver_providers.contains r.target_provider then
        qadd acc ((pr.overall : ℚ))
      else acc
    | none => acc) 0

/-- Count of parsed reviews addressed to provider p, lines 551 to 557. -/
def cntReviews (reviews : List ReviewResult) (solver_providers : List String)
    (p : String) : Nat :=
  reviews.foldl (fun acc r =>
    match r.parsed with
    | some _ =>
      if r.target_provider = p ∧ solver_providers.contains r.target_provider then
        acc + 1
      else acc
    | none => acc) 0

/-- The scored list of the deterministic fallback, line 559. -/
def fallbackScored (reviews : List ReviewResult)
    (solver_providers : List String) : List (ℚ × String) :=
  solver_providers.filterMap (fun p =>
    let c := cntReviews reviews solver_providers p
    if 0 < c then some (qdivN (sumOverall reviews solver_providers p) c, p)
    else none)

/-- Python tuple comparison on (average, provider): lexicographic with
strings compared by code points. -/
def pairLt : (ℚ × String) → (ℚ × String) → Prop :=
  lexRel Prod.fst (baseRel (fun a => a.2.data))

instance pairLtDecidable : DecidableRel pairLt := fun a b => by
  unfold pairLt
  infer_instance

/-- Fallback winner of judge_solutions, lines 549 to 560: max of the scored
list, else the first solver in plan order; none models the IndexError on an
empty solver list. -/
def fallbackWinner (reviews : List ReviewResult)
    (solver_providers : List String) : Option String :=
  match fallbackScored reviews solver_providers with
  | [] => solver_providers.head?
  | s0 :: rest => some (pyMax pairLt s0 rest).2

/-- council_engine.judge_solutions, lines 481 to 564. none models an
uncaught exception (IndexError on an empty solver list, KeyError when the
winner has no entry in the solutions map). -/
def judge_solutions (gen : Nat → LLMReply) (loads : String → Option PyVal)
    (validate : PyVal → Except String JudgeDecisionJSON)
    (state : CouncilState) : Option CouncilState :=
  let solutions := solutionsOf state
  let jr := judgeResultOf gen loads validate state.plan
  let state1 := { state with judge := some jr }
  let solver_providers := state.plan.solvers.map (·.provider)
  let fallback : Option CouncilState :=
    match fallbackWinner state1.reviews solver_providers with
    | none => none
    | some w =>
      match solutions.lookup w with
      | none => none
      | some txt =>
        some { state1 with winner_provider := some w, winner_text := some txt }
  match jr.parsed with
  | some d =>
    if solver_providers.contains d.winner_provider then
      match solutions.lookup d.winner_provider with
      | some txt =>
        some { state1 with
               winner_provider := some d.winner_provider,
               winner_text := some txt }
      | none => fallback
    else fallback
  | none => fallback

-- persistence.py

/-- to_jsonable image of a RoleOpinion (pydantic model_dump then
to_jsonable). -/
def jsonOfRoleOpinion (op : RoleOpinion) : PyVal :=
  .dict [("self", .dict [
      ("preferred_role", .str (match op.self.preferred_role with
        | Role.judge => "judge" | Role.solver => "solver")),
      ("confidence", .num op.self.confidence),
      ("reason", .str op.self.reason)]),
    ("recommended_judge", .dict [
      ("provider", .str op.recommended_judge.provider),
      ("confidence", .num op.recommended_judge.confidence),
      ("reason", .str op.recommended_judge.reason)])]

/-- to_jsonable image of an Option, None becoming JSON null. -/
def jsonOfOption (f : α → PyVal) : Option α → PyVal
  | none => .null
  | some x => f x

/-- to_jsonable image of an optional string. -/
def jsonOfOptStr : Option String → PyVal
  | none => .null
  | some s => .str s

/-- to_jsonable image of a RoleOpinionResult (dataclass asdict). -/
def jsonOfRoleOpinionResult (r : RoleOpinionResult) : PyVal :=
  .dict [("provider", .str r.provider), ("model", .str r.model),
    ("raw_text", .str r.raw_text),
    ("parsed", jsonOfOption jsonOfRoleOpinion r.parsed),
    ("parse_error", jsonOfOptStr r.parse_error)]

/-- to_jsonable image of the opinions map. -/
def jsonOfOpinions (ops : List (String × RoleOpinionResult)) : PyVal :=
  .dict (ops.map (fun kv => (kv.1, jsonOfRoleOpinionResult kv.2)))

/-- to_jsonable image of the score breakdown. -/
def jsonOfBreakdown (b : List (String × ScoreParts)) : PyVal :=
  .dict (b.map (fun kv => (kv.1, .dict [
    ("prior", .num kv.2.prior),
    ("self", .num kv.2.selfScore),
    ("nominations", .num kv.2.nominations)])))

/-- to_jsonable image of a parsed PeerReviewJSON. -/
def jsonOfPeerReview (p : PeerReviewJSON) : PyVal :=
  .dict [("reviewer_provider", .str p.reviewer_provider),
    ("target_provider", .str p.target_provider),
    ("correctness", .int p.correctness), ("completeness", .int p.completeness),
    ("clarity", .int p.clarity), ("feasibility", .int p.feasibility),
    ("overall", .int p.overall),
    ("key_flaws", .list (p.key_flaws.map .str)),
    ("suggested_fixes", .list (p.suggested_fixes.map .str)),
    ("summary", .str p.summary)]

/-- to_jsonable image of a parsed JudgeDecisionJSON. -/
def jsonOfJudgeDecision (d : JudgeDecisionJSON) : PyVal :=
  .dict [("winner_provider", .str d.winner_provider),
    ("ranking", .list d.ranking), ("rationale", .str d.rationale)]

/-- persistence._ser_plan output shape (opinions and score_breakdown made
JSON-safe). -/
structure SerPlan where
  judge : ModelInfo
  solvers : List ModelInfo
  opinions : PyVal
  score_breakdown : PyVal
deriving Repr

/-- persistence._ser_solution / _ser_revision output shape (raw omitted:
opaque payload). -/
structure SerSolution where
  provider : String
  model : String
  text : String
  error : Option String
deriving DecidableEq, Repr

/-- persistence._ser_review output shape (raw omitted). -/
structure SerReview where
  reviewer_provider : String
  target_provider : String
  raw_text : String
  attempts : Nat
  error : Option String
  parse_error : Option String
  parsed : PyVal
deriving Repr

/-- persistence._ser_judge output shape (raw omitted). -/
structure SerJudge where
  provider : String
  model : String
  raw_text : String
  attempts : Nat
  error : Option String
  parse_error : Option String
  parsed : PyVal
deriving Repr

/-- The run artifact written by persistence.serialize_state, lines 187 to
199 (created_at_utc omitted: a wall-clock timestamp not read back). -/
structure SerializedState where
  schema_version : Int
  problem_statement : String
  plan : SerPlan
  drafts : List (String × SerSolution)
  reviews : List SerReview
  revisions : List (String × SerSolution)
  judge : Option SerJudge
  winner_provider : Option String
  winner_text : Option String
deriving Repr

/-- persistence.serialize_state, lines 187 to 199. -/
def serialize_state (state : CouncilState) : SerializedState :=
  { schema_version := 1,
    problem_statement := state.problem_statement,
    plan := { judge := state.plan.judge, solvers := state.plan.solvers,
              opinions := jsonOfOpinions state.plan.opinions,
              score_breakdown := jsonOfBreakdown state.plan.score_breakdown },
    drafts := state.drafts.map (fun kv => (kv.1,
      { provider := kv.2.provider, model := kv.2.model, text := kv.2.text,
        error := kv.2.error })),
    reviews := state.reviews.map (fun r =>
      { reviewer_provider := r.reviewer_provider,
        target_provider := r.target_provider, raw_text := r.raw_text,
        attempts := r.attempts, error := r.error, parse_error := r.parse_error,
        parsed := jsonOfOption jsonOfPeerReview r.parsed }),
    revisions := state.revisions.map (fun kv => (kv.1,
      { provider := kv.2.provider, model := kv.2.model, text := kv.2.text,
        error := kv.2.error })),
    judge := state.judge.map (fun j =>
      { provider := j.provider, model := j.model, raw_text := j.raw_text,
        attempts := j.attempts, error := j.error, parse_error := j.parse_error,
        parsed := jsonOfOption jsonOfJudgeDecision j.parsed }),
    winner_provider := state.winner_provider,
    winner_text := state.winner_text }

/-- Review record as reconstructed by persistence._des_review: the parsed
payload stays a raw JSON-ish value rather than a PeerReviewJSON. -/
structure LoadedReview where
  reviewer_provider : String
  target_provider : String
  raw_text : String
  parsed : PyVal
  parse_error : Option String
  attempts : Nat
  error : Option String
deriving Repr

/-- Judge record as reconstructed by persistence._des_judge. -/
structure LoadedJudge where
  provider : String
  model : String
  raw_text : String
  parsed : PyVal
  parse_error : Option String
  attempts : Nat
  error : Option String
deriving Repr

/-- State as reconstructed by persistence.deserialize_state: the plan keeps
raw opinions and breakdown payloads, reviews and judge keep raw parsed
payloads; drafts and revisions are reconstructed typed records. -/
structure LoadedState where
  problem_statement : String
  plan : SerPlan
  drafts : List (String × SolutionResult)
  reviews : List LoadedReview
  revisions : List (String × RevisionResult)
  judge : Option LoadedJudge
  winner_provider : Option String
  winner_text : Option String
deriving Repr

/-- persistence.deserialize_state, lines 202 to 223. The raised ValueError
for a schema version mismatch is modelled as Except.error. -/
def deserialize_state (data : SerializedState) : Except String LoadedState :=
  if ¬ (data.schema_version = 1) then
    .error "Unsupported schema_version. Expected 1."
  else
    .ok { problem_statement := data.problem_statement,
          plan := data.plan,
          drafts := data.drafts.map (fun kv => (kv.1,
            { provider := kv.2.provider, model := kv.2.model,
              text := kv.2.text, error := kv.2.error })),
          reviews := data.reviews.map (fun r =>
            { reviewer_provider := r.reviewer_provider,
              target_provider := r.target_provider, raw_text := r.raw_text,
              parsed := r.parsed, parse_error := r.parse_error,
              attempts := r.attempts, error := r.error }),
          revisions := data.revisions.map (fun kv => (kv.1,
            { provider := kv.2.provider, model := kv.2.model,
              text := kv.2.text, error := kv.2.error })),
          judge := data.judge.map (fun j =>
            { provider := j.provider, model := j.model, raw_text := j.raw_text,
              parsed := j.parsed, parse_error := j.parse_error,
              attempts := j.attempts, error := j.error }),
          winner_provider := data.winner_provider,
          winner_text := data.winner_text }

-- Generic lemmas about lexicographic chains and the Python max fold

theorem baseRel_asymm [LinearOrder β] (f : α → β) :
    ∀ x y, baseRel f x y → ¬ baseRel f y x := by
  intro x y h
  exact lt_asymm h

theorem baseRel_cotrans [LinearOrder β] (f : α → β) :
    ∀ x y z, baseRel f x z → baseRel f x y ∨ baseRel f y z := by
  intro x y z h
  rcases lt_or_le (f x) (f y) with h2 | h2
  · exact Or.inl h2
  · exact Or.inr (lt_of_le_of_lt h2 h)

theorem lexRel_asymm [LinearOrder β] (f : α → β) (S : α → α → Prop)
    (hS : ∀ x y, S x y → ¬ S y x) :
    ∀ x y, lexRel f S x y → ¬ lexRel f S y x := by
  intro x y h h2
  rcases h with h | ⟨he, hs⟩
  · rcases h2 with h2 | ⟨he2, _⟩
    · exact lt_asymm h h2
    · exact lt_irrefl (f x) (h.trans_eq he2)
  · rcases h2 with h2 | ⟨_, hs2⟩
    · exact lt_irrefl (f y) (h2.trans_eq he)
    · exact hS x y hs hs2

theorem lexRel_cotrans [LinearOrder β] (f : α → β) (S : α → α → Prop)
    (hS : ∀ x y z, S x z → S x y ∨ S y z) :
    ∀ x y z, lexRel f S x z → lexRel f S x y ∨ lexRel f S y z := by
  intro x y z h
  rcases h with h | ⟨he, hs⟩
  · rcases lt_or_le (f x) (f y) with h2 | h2
    · exact Or.inl (Or.inl h2)
    · exact Or.inr (Or.inl (lt_of_le_of_lt h2 h))
  · rcases lt_trichotomy (f x) (f y) with h2 | h2 | h2
    · exact Or.inl (Or.inl h2)
    · rcases hS x y z hs with h3 | h3
      · exact Or.inl (Or.inr ⟨h2, h3⟩)
      · exact Or.inr (Or.inr ⟨h2.symm.trans he, h3⟩)
    · exact Or.inr (Or.inl (h2.trans_eq he))

theorem pyMax_cons (r : α → α → Prop) [DecidableRel r] (x z : α) (zs : List α) :
    pyMax r x (z :: zs) = pyMax r (if r x z then z else x) zs := by
  simp only [pyMax, List.foldl_cons]

theorem pyMax_mem (r : α → α → Prop) [DecidableRel r] (x : α) (xs : List α) :
    pyMax r x xs ∈ x :: xs := by
  induction xs generalizing x with
  | nil => simp [pyMax]
  | cons z zs ih =>
    rw [pyMax_cons]
    rcases List.mem_cons.mp (ih (if r x z then z else x)) with h | h
    · rw [h]
      split
      · exact List.mem_cons_of_mem _ (List.mem_cons_self _ _)
      · exact List.mem_cons_self _ _
    · exact List.mem_cons_of_mem _ (List.mem_cons_of_mem _ h)

theorem pyMax_not_lt (r : α → α → Prop) [DecidableRel r]
    (hasymm : ∀ a b, r a b → ¬ r b a)
    (hco : ∀ a b c, r a c → r a b ∨ r b c)
    (x : α) (xs : List α) :
    ∀ y ∈ x :: xs, ¬ r (pyMax r x xs) y := by
  induction xs generalizing x with
  | nil =>
    intro y hy
    have hx : y = x := by simpa using hy
    subst hx
    simp only [pyMax, List.foldl_nil]
    intro hr
    exact hasymm _ _ hr hr
  | cons z zs ih =>
    intro y hy
    rw [pyMax_cons]
    by_cases hxz : r x z
    · rw [if_pos hxz]
      rcases List.mem_cons.mp hy with h | h
      · subst h
        intro hMy
        rcases hco y (pyMax r z zs) z hxz with h1 | h1
        · exact hasymm _ _ hMy h1
        · exact ih z z (List.mem_cons_self _ _) h1
      · exact ih z y h
    · rw [if_neg hxz]
      rcases List.mem_cons.mp hy with h | h
      · subst h
        exact ih y y (List.mem_cons_self _ _)
      · rcases List.mem_cons.mp h with h2 | h2
        · subst h2
          intro hMy
          rcases hco (pyMax r x zs) x y hMy with h1 | h1
          · exact ih x x (List.mem_cons_self _ _) h1
          · exact hxz h1
        · exact ih x y (List.mem_cons_of_mem _ h2)

-- Claim C9

/-- C9: Round-trip: for every CouncilState, with any combination of drafts,
reviews, revisions and judge populated, deserializing the serialized state
succeeds and yields a state whose winner_provider and winner_text are
identical to the originals. -/
theorem C9_roundtrip_winner (state : CouncilState) :
    ∃ ls : LoadedState,
      deserialize_state (serialize_state state) = .ok ls ∧
        ls.winner_provider = state.winner_provider ∧
        ls.winner_text = state.winner_text :=
  ⟨_, rfl, rfl, rfl⟩

-- Claim C3: concrete fixtures

/-- Roster fixture for the role opinion claims. -/
def rosterC3 : List ModelInfo :=
  [⟨1, "openai", "gpt-5-nano"⟩, ⟨2, "anthropic", "claude"⟩, ⟨3, "gemini", "g"⟩]

/-- A parsed opinion nominating a provider in the sloppy key=value format. -/
def opinionMangled : RoleOpinion :=
  { self := { preferred_role := Role.solver, confidence := 1, reason := "r" },
    recommended_judge := { provider := "provider=openai, model=gpt",
                           confidence := 1, reason := "r" } }

/-- A parsed opinion nominating a provider that cannot be mapped to the
roster. -/
def opinionUnmappable : RoleOpinion :=
  { self := { preferred_role := Role.solver, confidence := 1, reason := "r" },
    recommended_judge := { provider := "mystery box",
                           confidence := 1, reason := "r" } }

/-- A parsed opinion nominating a roster provider exactly. -/
def opinionExact : RoleOpinion :=
  { self := { preferred_role := Role.judge, confidence := 1, reason := "r" },
    recommended_judge := { provider := "gemini", confidence := 1, reason := "r" } }

/-- Reply fixture: the reply text is irrelevant because the parse oracles
below ignore it. -/
def replyC3 : LLMReply :=
  { provider := "openai", model := "gpt-5-nano", text := "{}", latency_ms := 1 }

/-- Loads oracle returning an empty JSON object for any text. -/
def loadsC3 : String → Option PyVal := fun _ => some (.dict [])

/-- C3: normalization of recommended_judge.provider in ask_for_roles.
The exact-match case keeps the provider, the token case rewrites the sloppy
string to the roster provider, but the unmappable case RAISES AttributeError
instead of returning an invalidated result: the source nulls parsed and then
dereferences it while building the error message. The claim describes the
documented intent; the code slip makes the third case raise. -/
theorem C3_normalize_cases :
    (ask_for_roles_member loadsC3 (fun _ => .ok opinionExact) rosterC3 replyC3
        ⟨1, "openai", "gpt-5-nano"⟩ =
      .ok { provider := "openai", model := "gpt-5-nano", raw_text := "{}",
            parsed := some opinionExact, parse_error := none }) ∧
    (ask_for_roles_member loadsC3 (fun _ => .ok opinionMangled) rosterC3 replyC3
        ⟨1, "openai", "gpt-5-nano"⟩ =
      .ok { provider := "openai", model := "gpt-5-nano", raw_text := "{}",
            parsed := some { opinionMangled with
              recommended_judge := { opinionMangled.recommended_judge with
                provider := "openai" } },
            parse_error := none }) ∧
    (ask_for_roles_member loadsC3 (fun _ => .ok opinionUnmappable) rosterC3 replyC3
        ⟨1, "openai", "gpt-5-nano"⟩ =
      .error "AttributeError: NoneType object has no attribute recommended_judge") := by
  refine ⟨?_, ?_, ?_⟩ <;> rfl

-- Specialized order facts

theorem pairLt_asymm : ∀ a b, pairLt a b → ¬ pairLt b a := by
  unfold pairLt
  exact lexRel_asymm _ _ (baseRel_asymm _)

theorem pairLt_cotrans : ∀ a b c, pairLt a c → pairLt a b ∨ pairLt b c := by
  unfold pairLt
  exact lexRel_cotrans _ _ (baseRel_cotrans _)

theorem scoredLt_asymm (roster : List ModelInfo)
    (opinions : List (String × RoleOpinionResult)) (prior : List (String × ℚ)) :
    ∀ a b, scoredLt roster opinions prior a b →
      ¬ scoredLt roster opinions prior b a := by
  unfold scoredLt
  exact lexRel_asymm _ _ (lexRel_asymm _ _ (lexRel_asymm _ _ (lexRel_asymm _ _
    (baseRel_asymm _))))

theorem scoredLt_cotrans (roster : List ModelInfo)
    (opinions : List (String × RoleOpinionResult)) (prior : List (String × ℚ)) :
    ∀ a b c, scoredLt roster opinions prior a c →
      scoredLt roster opinions prior a b ∨ scoredLt roster opinions prior b c := by
  unfold scoredLt
  exact lexRel_cotrans _ _ (lexRel_cotrans _ _ (lexRel_cotrans _ _
    (lexRel_cotrans _ _ (baseRel_cotrans _))))

-- mapE facts

theorem mapE_ok_cons {ε α β : Type} {f : α → Except ε β} {m : α} {ms : List α}
    {ys : List β} :
    mapE f (m :: ms) = .ok ys ↔
      ∃ r rs, f m = .ok r ∧ mapE f ms = .ok rs ∧ ys = r :: rs := by
  constructor
  · intro h
    cases hf : f m with
    | error e => simp [mapE, hf] at h
    | ok r =>
      cases hms : mapE f ms with
      | error e => simp [mapE, hf, hms] at h
      | ok rs =>
        simp only [mapE, hf, hms] at h
        refine ⟨r, rs, rfl, rfl, ?_⟩
        have := (Except.ok.injEq _ _).mp h
        exact this.symm
  · rintro ⟨r, rs, h1, h2, rfl⟩
    simp [mapE, h1, h2]

-- Claim C6

/-- Lookup fact for the revisions map built by revise_solutions. -/
theorem revise_lookup_aux (gen : ModelInfo → LLMReply) (state : CouncilState)
    (solver : ModelInfo) (draft : SolutionResult)
    (hdraft : state.drafts.lookup solver.provider = some draft)
    (hblank : pyStrip (gen solver).text = "") :
    ∀ (solvers : List ModelInfo) (revs : List RevisionResult),
      solver ∈ solvers →
      (solvers.map (·.provider)).Nodup →
      mapE (reviseOne gen state) solvers = .ok revs →
      ∃ rv, (revs.map (fun r => (r.provider, r))).lookup solver.provider = some rv
        ∧ rv.text = draft.text := by
  intro solvers
  induction solvers with
  | nil =>
    intro revs hmem
    simp at hmem
  | cons m ms ih =>
    intro revs hmem hnodup hmapM
    rcases mapE_ok_cons.mp hmapM with ⟨r, rs, hr, hrs, rfl⟩
    rcases List.mem_cons.mp hmem with hm | hm
    · subst hm
      unfold reviseOne at hr
      rw [hdraft] at hr
      simp only [hblank] at hr
      simp at hr
      refine ⟨r, ?_, ?_⟩
      · rw [← hr]
        simp [List.lookup]
      · rw [← hr]
    · have hrp : r.provider = m.provider := by
        unfold reviseOne at hr
        cases hlk : state.drafts.lookup m.provider with
        | none => rw [hlk] at hr; simp at hr
        | some d =>
          rw [hlk] at hr
          have h2 := (Except.ok.injEq _ _).mp hr
          rw [← h2]
      have hne : ¬ (solver.provider = m.provider) := by
        intro he
        rw [List.map_cons, List.nodup_cons] at hnodup
        exact hnodup.1 (he ▸ List.mem_map_of_mem (·.provider) hm)
      rcases ih rs hm (by
        rw [List.map_cons, List.nodup_cons] at hnodup
        exact hnodup.2) hrs with ⟨rv, hlk, ht⟩
      refine ⟨rv, ?_, ht⟩
      simp only [List.map_cons, List.lookup, hrp]
      rw [beq_eq_false_iff_ne.mpr hne]
      exact hlk

/-- C6: Never-regress: for every solver, if the generation reply text
produced during revise_solutions is empty or whitespace-only, the recorded
revision text equals the draft text exactly. -/
theorem C6_never_regress (gen : ModelInfo → LLMReply)
    (state state' : CouncilState) (solver : ModelInfo) (draft : SolutionResult)
    (hmem : solver ∈ state.plan.solvers)
    (hnodup : (state.plan.solvers.map (·.provider)).Nodup)
    (hdraft : state.drafts.lookup solver.provider = some draft)
    (hblank : pyStrip (gen solver).text = "")
    (hrun : revise_solutions gen state = .ok state') :
    ∃ rv, state'.revisions.lookup solver.provider = some rv
      ∧ rv.text = draft.text := by
  unfold revise_solutions at hrun
  by_cases hempty : state.drafts.isEmpty
  · rw [if_pos hempty] at hrun
    simp at hrun
  · rw [if_neg hempty] at hrun
    cases hmapM : mapE (reviseOne gen state) state.plan.solvers with
    | error e =>
      rw [hmapM] at hrun
      simp at hrun
    | ok revs =>
      rw [hmapM] at hrun
      have hst : state'.revisions = revs.map (fun r => (r.provider, r)) := by
        have h2 := (Except.ok.injEq _ _).mp hrun
        rw [← h2]
      rw [hst]
      exact revise_lookup_aux gen state solver draft hdraft hblank
        state.plan.solvers revs hmem hnodup hmapM

-- Claim C6 witness fixtures

/-- Two-solver plan fixture. -/
def planW6 : SuggestedPlan :=
  { judge := ⟨1, "xai", "grok"⟩,
    solvers := [⟨2, "openai", "gpt"⟩, ⟨3, "anthropic", "claude"⟩],
    opinions := [], score_breakdown := [] }

/-- State fixture with drafts for both solvers. -/
def stateW6 : CouncilState :=
  { problem_statement := "p", plan := planW6,
    drafts := [("openai", { provider := "openai", model := "gpt", text := "draft o" }),
               ("anthropic", { provider := "anthropic", model := "claude", text := "draft a" })] }

/-- Generation oracle returning whitespace-only revision text. -/
def genW6 : ModelInfo → LLMReply :=
  fun m => { provider := m.provider, model := m.model, text := "  \n ", latency_ms := 1 }

/-- The state revise_solutions produces on the fixture. -/
def stateW6out : CouncilState :=
  { stateW6 with revisions :=
      [("openai", { provider := "openai", model := "gpt", text := "draft o" }),
       ("anthropic", { provider := "anthropic", model := "claude", text := "draft a" })] }

theorem C6_never_regress_witness :
    ((⟨2, "openai", "gpt"⟩ : ModelInfo) ∈ stateW6.plan.solvers ∧
      (stateW6.plan.solvers.map (·.provider)).Nodup ∧
      stateW6.drafts.lookup "openai" =
        some { provider := "openai", model := "gpt", text := "draft o" } ∧
      pyStrip (genW6 ⟨2, "openai", "gpt"⟩).text = "" ∧
      revise_solutions genW6 stateW6 = .ok stateW6out) ∧
    (∃ rv, stateW6out.revisions.lookup "openai" = some rv ∧
      rv.text =
        ({ provider := "openai", model := "gpt", text := "draft o" } : SolutionResult).text) :=
  ⟨⟨by decide, by decide, by decide, by rfl, by rfl⟩,
    C6_never_regress genW6 stateW6 stateW6out ⟨2, "openai", "gpt"⟩
      { provider := "openai", model := "gpt", text := "draft o" }
      (by decide) (by decide) (by decide) (by rfl) (by rfl)⟩

-- Claim C8

/-- Shape of the second parse block: a validated value with no error, or a
null value with an error. -/
theorem parse_second_shape (loads : String → Option PyVal)
    (validate : PyVal → Except String V) (raw : String) :
    (∃ v, parse_second loads validate raw = (some v, none)) ∨
      (∃ e, parse_second loads validate raw = (none, some e)) := by
  unfold parse_second
  cases extract_first_json_object raw with
  | none => exact Or.inr ⟨_, rfl⟩
  | some ex =>
    dsimp only
    cases loads ex with
    | none => exact Or.inr ⟨_, rfl⟩
    | some d =>
      dsimp only
      cases validate d with
      | ok v => exact Or.inl ⟨v, rfl⟩
      | error e => exact Or.inr ⟨_, rfl⟩

/-- Shape of the full parser: a validated value with no error, or a null
value with an error. -/
theorem parse_shape (loads : String → Option PyVal)
    (validate : PyVal → Except String V) (raw : String) :
    (∃ v, parse_json_with_schema loads validate raw = (some v, none)) ∨
      (∃ e, parse_json_with_schema loads validate raw = (none, some e)) := by
  unfold parse_json_with_schema
  cases loads raw with
  | none => exact parse_second_shape loads validate raw
  | some d =>
    dsimp only
    cases validate d with
    | ok v => exact Or.inl ⟨v, rfl⟩
    | error e => exact parse_second_shape loads validate raw

/-- C8: the structured-output parser is total and defensive: it always
returns a definite (value, error) pair with exactly one side populated;
when the text holds no opening brace, or the brace scan never returns to
depth zero (extraction fails), it returns a null value with the descriptive
error; and when schema validation rejects every candidate value it returns
a null value with a descriptive error. The oracle hypotheses state two
facts of the real libraries: a decoded JSON object literal contains an
opening brace that the scanner finds, and schema validation succeeds only
on a decoded JSON object. -/
theorem C8_parser_total (loads : String → Option PyVal)
    (validate : PyVal → Except String V) (raw : String)
    (hLoadsDict : ∀ s v, loads s = some v → v.isDict = true →
      (extract_first_json_object s).isSome)
    (hValidate : ∀ v x, validate v = .ok x → v.isDict = true) :
    ((parse_json_with_schema loads validate raw).1 = none ↔
        (parse_json_with_schema loads validate raw).2 ≠ none) ∧
      (hasBrace raw = false →
        parse_json_with_schema loads validate raw =
          (none, some "No JSON object found.")) ∧
      (extract_first_json_object raw = none →
        parse_json_with_schema loads validate raw =
          (none, some "No JSON object found.")) ∧
      ((∀ v, ∃ e, validate v = .error e) →
        ∃ e, parse_json_with_schema loads validate raw = (none, some e)) := by
  have hext : extract_first_json_object raw = none →
      parse_json_with_schema loads validate raw =
        (none, some "No JSON object found.") := by
    intro hnone
    unfold parse_json_with_schema
    have hsec : parse_second loads validate raw =
        (none, some "No JSON object found.") := by
      unfold parse_second
      rw [hnone]
    cases hl : loads raw with
    | none => exact hsec
    | some d =>
      dsimp only
      cases hv : validate d with
      | ok v =>
        have hd := hValidate d v hv
        have hsome := hLoadsDict raw d hl hd
        rw [hnone] at hsome
        simp at hsome
      | error e => exact hsec
  refine ⟨?_, ?_, hext, ?_⟩
  · rcases parse_shape loads validate raw with ⟨v, hv⟩ | ⟨e, he⟩
    · rw [hv]
      simp
    · rw [he]
      simp
  · intro hnb
    exact hext (extract_none_of_no_brace raw hnb)
  · intro hval
    have hsec : ∃ e, parse_second loads validate raw = (none, some e) := by
      unfold parse_second
      cases extract_first_json_object raw with
      | none => exact ⟨_, rfl⟩
      | some ex =>
        dsimp only
        cases loads ex with
        | none => exact ⟨_, rfl⟩
        | some d =>
          dsimp only
          rcases hval d with ⟨e0, he0⟩
          rw [he0]
          exact ⟨_, rfl⟩
    unfold parse_json_with_schema
    cases hl : loads raw with
    | none => exact hsec
    | some d =>
      dsimp only
      rcases hval d with ⟨e0, he0⟩
      rw [he0]
      exact hsec

/-- Witness for C8 at a concrete no-brace input with concrete oracles. -/
theorem C8_parser_total_witness :
    ∃ e, parse_json_with_schema (V := Unit) (fun _ => none)
      (fun _ => .error "rejected") "hello world" = (none, some e) :=
  (C8_parser_total (V := Unit) (fun _ => none) (fun _ => .error "rejected")
      "hello world"
      (by intro s v h _; simp at h)
      (by intro v x h; simp at h)).2.2.2
    (by intro v; exact ⟨"rejected", rfl⟩)

-- Claim C7

/-- C7: retry semantics of review and judge attempts: attempts equals 2
exactly when the first parse failed (the parser returns a null value iff it
returns an error, by parse_shape), attempts is always 1 or 2 (exactly one
repair call), and when both attempts fail the record carries a null parse,
the last parse error, and attempts 2. -/
theorem C7_retry_semantics (gen : Nat → LLMReply) (loads : String → Option PyVal)
    (validateR : PyVal → Except String PeerReviewJSON)
    (validateJ : PyVal → Except String JudgeDecisionJSON)
    (reviewer target : ModelInfo) (plan : SuggestedPlan) :
    ((oneReview gen loads validateR reviewer target).attempts = 2 ↔
        (parse_json_with_schema loads validateR (gen 1).text).1 = none) ∧
      ((oneReview gen loads validateR reviewer target).attempts = 1 ∨
        (oneReview gen loads validateR reviewer target).attempts = 2) ∧
      ((parse_json_with_schema loads validateR (gen 1).text).1 = none →
        (parse_json_with_schema loads validateR (gen 2).text).1 = none →
        (oneReview gen loads validateR reviewer target).parsed = none ∧
          (oneReview gen loads validateR reviewer target).parse_error =
            (parse_json_with_schema loads validateR (gen 2).text).2 ∧
          (oneReview gen loads validateR reviewer target).attempts = 2) ∧
      ((judgeResultOf gen loads validateJ plan).attempts = 2 ↔
        (parse_json_with_schema loads validateJ (gen 1).text).1 = none) ∧
      ((judgeResultOf gen loads validateJ plan).attempts = 1 ∨
        (judgeResultOf gen loads validateJ plan).attempts = 2) ∧
      ((parse_json_with_schema loads validateJ (gen 1).text).1 = none →
        (judgeResultOf gen loads validateJ plan).parsed =
            (parse_json_with_schema loads validateJ (gen 2).text).1 ∧
          (judgeResultOf gen loads validateJ plan).parse_error =
            (parse_json_with_schema loads validateJ (gen 2).text).2 ∧
          (judgeResultOf gen loads validateJ plan).attempts = 2) := by
  rcases parse_shape loads validateR (gen 1).text with ⟨v1, hv1⟩ | ⟨e1, he1⟩
  · refine ⟨?_, ?_, ?_, ?_⟩
    · simp [oneReview, hv1]
    · simp [oneReview, hv1]
    · intro hfail
      rw [hv1] at hfail
      simp at hfail
    · rcases parse_shape loads validateJ (gen 1).text with ⟨w1, hw1⟩ | ⟨f1, hf1⟩
      · refine ⟨?_, ?_, ?_⟩
        · simp [judgeResultOf, hw1]
        · simp [judgeResultOf, hw1]
        · intro hfail
          rw [hw1] at hfail
          simp at hfail
      · refine ⟨?_, ?_, ?_⟩
        · simp [judgeResultOf, hf1]
        · simp [judgeResultOf, hf1]
        · intro _
          simp [judgeResultOf, hf1]
  · rcases parse_shape loads validateR (gen 2).text with ⟨v2, hv2⟩ | ⟨e2, he2⟩
    · refine ⟨?_, ?_, ?_, ?_⟩
      · simp [oneReview, he1, hv2]
      · simp [oneReview, he1, hv2]
      · intro _ hfail2
        rw [hv2] at hfail2
        simp at hfail2
      · rcases parse_shape loads validateJ (gen 1).text with ⟨w1, hw1⟩ | ⟨f1, hf1⟩
        · refine ⟨?_, ?_, ?_⟩
          · simp [judgeResultOf, hw1]
          · simp [judgeResultOf, hw1]
          · intro hfail
            rw [hw1] at hfail
            simp at hfail
        · refine ⟨?_, ?_, ?_⟩
          · simp [judgeResultOf, hf1]
          · simp [judgeResultOf, hf1]
          · intro _
            simp [judgeResultOf, hf1]
    · refine ⟨?_, ?_, ?_, ?_⟩
      · simp [oneReview, he1, he2]
      · simp [oneReview, he1, he2]
      · intro _ _
        simp [oneReview, he1, he2]
      · rcases parse_shape loads validateJ (gen 1).text with ⟨w1, hw1⟩ | ⟨f1, hf1⟩
        · refine ⟨?_, ?_, ?_⟩
          · simp [judgeResultOf, hw1]
          · simp [judgeResultOf, hw1]
          · intro hfail
            rw [hw1] at hfail
            simp at hfail
        · refine ⟨?_, ?_, ?_⟩
          · simp [judgeResultOf, hf1]
          · simp [judgeResultOf, hf1]
          · intro _
            simp [judgeResultOf, hf1]

-- Claim C7 witness fixtures

/-- Generation oracle returning unparsable text on every attempt. -/
def genW7 : Nat → LLMReply :=
  fun n => { provider := "xai", model := "grok", text := "no json here",
             latency_ms := Int.ofNat n }

/-- Loads oracle that always fails. -/
def loadsW7 : String → Option PyVal := fun _ => none

/-- Review validator that always rejects. -/
def valRW7 : PyVal → Except String PeerReviewJSON := fun _ => .error "nope"

/-- Judge validator that always rejects. -/
def valJW7 : PyVal → Except String JudgeDecisionJSON := fun _ => .error "nope"

theorem C7_retry_semantics_witness :
    (oneReview genW7 loadsW7 valRW7 ⟨2, "openai", "gpt"⟩
        ⟨3, "anthropic", "claude"⟩).attempts = 2 ∧
      (oneReview genW7 loadsW7 valRW7 ⟨2, "openai", "gpt"⟩
        ⟨3, "anthropic", "claude"⟩).parsed = none ∧
      (judgeResultOf genW7 loadsW7 valJW7 planW6).attempts = 2 :=
  have h := C7_retry_semantics genW7 loadsW7 valRW7 valJW7
    ⟨2, "openai", "gpt"⟩ ⟨3, "anthropic", "claude"⟩ planW6
  ⟨h.1.mpr (by rfl), (h.2.2.1 (by rfl) (by rfl)).1, h.2.2.2.1.mpr (by rfl)⟩

-- Claim C5: counting lemmas

theorem length_flatMap' (f : α → List β) :
    ∀ l : List α, (l.flatMap f).length = (l.map (fun a => (f a).length)).sum := by
  intro l
  induction l with
  | nil => simp
  | cons a l ih => simp [List.flatMap_cons, ih]

theorem countP_flatMap' (p : β → Bool) (f : α → List β) :
    ∀ l : List α,
      List.countP p (l.flatMap f) = (l.map (fun a => List.countP p (f a))).sum := by
  intro l
  induction l with
  | nil => simp
  | cons a l ih => simp [List.flatMap_cons, List.countP_append, ih]

theorem countP_eq_provider (r : String) :
    ∀ l : List ModelInfo, (l.map (·.provider)).Nodup →
      r ∈ l.map (·.provider) →
      List.countP (fun t => decide (r = t.provider)) l = 1 := by
  intro l
  induction l with
  | nil =>
    intro _ h
    simp at h
  | cons m ms ih =>
    intro hnd hmem
    rw [List.map_cons, List.nodup_cons] at hnd
    rcases List.mem_cons.mp hmem with he | he
    · rw [List.countP_cons_of_pos _ _ (by simp [he])]
      have hz : List.countP (fun t => decide (r = t.provider)) ms = 0 := by
        rw [List.countP_eq_zero]
        intro a ha hc
        have h2 : r = a.provider := of_decide_eq_true hc
        apply hnd.1
        have h3 : a.provider ∈ ms.map (·.provider) :=
          List.mem_map_of_mem (·.provider) ha
        rw [← h2, he] at h3
        exact h3
      rw [hz]
    · have hne : ¬ (r = m.provider) := by
        intro he2
        apply hnd.1
        rw [he2] at he
        exact he
      rw [List.countP_cons_of_neg _ _ (by simp [hne])]
      exact ih hnd.2 he

theorem filter_ne_provider_length (r : String) :
    ∀ l : List ModelInfo, (l.map (·.provider)).Nodup →
      r ∈ l.map (·.provider) →
      (l.filter (fun t => decide (¬ (r = t.provider)))).length = l.length - 1 := by
  intro l
  induction l with
  | nil =>
    intro _ h
    simp at h
  | cons m ms ih =>
    intro hnd hmem
    rw [List.map_cons, List.nodup_cons] at hnd
    rcases List.mem_cons.mp hmem with he | he
    · rw [List.filter_cons_of_neg (by simp [he])]
      have hall : ms.filter (fun t => decide (¬ (r = t.provider))) = ms := by
        rw [List.filter_eq_self]
        intro a ha
        simp only [decide_eq_true_eq]
        intro h2
        apply hnd.1
        have h3 : a.provider ∈ ms.map (·.provider) :=
          List.mem_map_of_mem (·.provider) ha
        rw [← h2, he] at h3
        exact h3
      rw [hall]
      simp
    · have hne : ¬ (r = m.provider) := by
        intro he2
        apply hnd.1
        rw [he2] at he
        exact he
      rw [List.filter_cons_of_pos (by simp [hne])]
      simp only [List.length_cons]
      rw [ih hnd.2 he]
      have hpos : 0 < ms.length := by
        cases ms
        · simp at he
        · simp
      omega

theorem sum_map_eq_of_const (f : α → Nat) (c : Nat) :
    ∀ l : List α, (∀ a ∈ l, f a = c) → (l.map f).sum = l.length * c := by
  intro l
  induction l with
  | nil => simp
  | cons a l ih =>
    intro h
    rw [List.map_cons, List.sum_cons, ih (fun b hb => h b (List.mem_cons_of_mem _ hb)),
      h a (List.mem_cons_self _ _), List.length_cons, Nat.succ_mul]
    omega

theorem reviewPairs_length (solvers : List ModelInfo)
    (hnd : (solvers.map (·.provider)).Nodup) :
    (reviewPairs solvers).length = solvers.length * (solvers.length - 1) := by
  unfold reviewPairs
  rw [length_flatMap']
  exact sum_map_eq_of_const _ _ solvers (fun a ha => by
    rw [List.length_map]
    exact filter_ne_provider_length a.provider solvers hnd
      (List.mem_map_of_mem (·.provider) ha))

theorem sum_ite_provider (r : String) :
    ∀ l : List ModelInfo, (l.map (·.provider)).Nodup →
      r ∈ l.map (·.provider) →
      (l.map (fun a => if a.provider = r then 1 else 0)).sum = 1 := by
  intro l
  induction l with
  | nil =>
    intro _ h
    simp at h
  | cons m ms ih =>
    intro hnd hmem
    rw [List.map_cons, List.nodup_cons] at hnd
    rw [List.map_cons, List.sum_cons]
    rcases List.mem_cons.mp hmem with he | he
    · rw [if_pos he.symm]
      have hz : (ms.map (fun a => if a.provider = r then 1 else 0)).sum = 0 := by
        rw [List.sum_eq_zero_iff]
        intro x hx
        rcases List.mem_map.mp hx with ⟨a, ha, hax⟩
        have hna : ¬ (a.provider = r) := by
          intro h2
          apply hnd.1
          have h3 : a.provider ∈ ms.map (·.provider) :=
            List.mem_map_of_mem (·.provider) ha
          rw [h2, he] at h3
          exact h3
        rw [if_neg hna] at hax
        omega
      omega
    · have hne : ¬ (m.provider = r) := by
        intro he2
        apply hnd.1
        rw [← he2] at he
        exact he
      rw [if_neg hne]
      have := ih hnd.2 he
      omega

theorem innerCount (solvers : List ModelInfo)
    (hnd : (solvers.map (·.provider)).Nodup) (t : String)
    (ht : t ∈ solvers.map (·.provider)) (a : ModelInfo) (r : String)
    (hne : ¬ (r = t)) :
    List.countP (fun rt : ModelInfo × ModelInfo =>
        decide (rt.1.provider = r ∧ rt.2.provider = t))
      ((solvers.filter (fun tg => decide (¬ (a.provider = tg.provider)))).map
        (fun tg => (a, tg))) =
      if a.provider = r then 1 else 0 := by
  rw [List.countP_map]
  by_cases ha : a.provider = r
  · rw [if_pos ha, List.countP_filter]
    refine Eq.trans (List.countP_congr
      (q := fun x => decide (t = x.provider)) ?_)
      (countP_eq_provider t solvers hnd ht)
    intro x _
    simp only [Function.comp, Bool.and_eq_true, decide_eq_true_eq]
    constructor
    · rintro ⟨⟨_, hx⟩, _⟩
      exact hx.symm
    · intro hx
      refine ⟨⟨ha, hx.symm⟩, ?_⟩
      rw [ha]
      intro h2
      exact hne (h2.trans hx.symm)
  · rw [if_neg ha, List.countP_eq_zero]
    intro x _ hc
    simp only [Function.comp, decide_eq_true_eq] at hc
    exact ha hc.1

theorem countP_reviewPairs (solvers : List ModelInfo)
    (hnd : (solvers.map (·.provider)).Nodup) (r t : String)
    (hr : r ∈ solvers.map (·.provider)) (ht : t ∈ solvers.map (·.provider))
    (hne : ¬ (r = t)) :
    List.countP (fun rt : ModelInfo × ModelInfo =>
        decide (rt.1.provider = r ∧ rt.2.provider = t)) (reviewPairs solvers) = 1 := by
  unfold reviewPairs
  refine Eq.trans (countP_flatMap' _ _ solvers) ?_
  refine Eq.trans (congrArg List.sum (List.map_congr_left
    (g := fun a => if a.provider = r then 1 else 0)
    (fun a _ => innerCount solvers hnd t ht a r hne))) ?_
  exact sum_ite_provider r solvers hnd hr

/-- Identity fields of a review record are the ground-truth pair, whatever
the oracles do. -/
theorem oneReview_fields (gen : Nat → LLMReply) (loads : String → Option PyVal)
    (validate : PyVal → Except String PeerReviewJSON) (a b : ModelInfo) :
    (oneReview gen loads validate a b).reviewer_provider = a.provider ∧
      (oneReview gen loads validate a b).target_provider = b.provider := by
  rcases parse_shape loads validate (gen 1).text with ⟨v1, hv1⟩ | ⟨e1, he1⟩
  · constructor <;> simp [oneReview, hv1]
  · rcases parse_shape loads validate (gen 2).text with ⟨v2, hv2⟩ | ⟨e2, he2⟩
    · constructor <;> simp [oneReview, he1, hv2]
    · constructor <;> simp [oneReview, he1, he2]

/-- C5: for every plan with providers-distinct solvers and non-empty drafts,
generate_peer_reviews produces exactly N(N-1) records, exactly one for each
ordered pair of distinct solver providers, for EVERY behaviour of the
generation and parse oracles (failures included). -/
theorem C5_review_counts (gen : ModelInfo → ModelInfo → Nat → LLMReply)
    (loads : String → Option PyVal)
    (validate : PyVal → Except String PeerReviewJSON)
    (state : CouncilState) (l : List ReviewResult)
    (hdrafts : ¬ (state.drafts = []))
    (hnd : (state.plan.solvers.map (·.provider)).Nodup)
    (hrun : generate_peer_reviews gen loads validate state = .ok l) :
    l.length = state.plan.solvers.length * (state.plan.solvers.length - 1) ∧
      ∀ r t : String, r ∈ state.plan.solvers.map (·.provider) →
        t ∈ state.plan.solvers.map (·.provider) → ¬ (r = t) →
        List.countP (fun res =>
          decide (res.reviewer_provider = r ∧ res.target_provider = t)) l = 1 := by
  unfold generate_peer_reviews at hrun
  rw [if_neg (by simpa [List.isEmpty_iff] using hdrafts)] at hrun
  have hl := (Except.ok.injEq _ _).mp hrun
  subst hl
  constructor
  · rw [List.length_map]
    exact reviewPairs_length state.plan.solvers hnd
  · intro r t hr ht hne
    rw [List.countP_map]
    have hcongr : List.countP ((fun res =>
          decide (res.reviewer_provider = r ∧ res.target_provider = t)) ∘
          (fun rt => oneReview (gen rt.1 rt.2) loads validate rt.1 rt.2))
        (reviewPairs state.plan.solvers) =
        List.countP (fun rt : ModelInfo × ModelInfo =>
          decide (rt.1.provider = r ∧ rt.2.provider = t))
        (reviewPairs state.plan.solvers) := by
      apply List.countP_congr
      intro rt _
      rcases oneReview_fields (gen rt.1 rt.2) loads validate rt.1 rt.2 with ⟨h1, h2⟩
      simp [Function.comp, h1, h2]
    rw [hcongr]
    exact countP_reviewPairs state.plan.solvers hnd r t hr ht hne

-- Claim C5 witness fixtures

/-- Generation oracle whose replies never parse. -/
def genW5 : ModelInfo → ModelInfo → Nat → LLMReply :=
  fun r _ _ => { provider := r.provider, model := r.model, text := "not json",
                 latency_ms := 1 }

/-- The review list generate_peer_reviews produces on the fixture. -/
def lW5 : List ReviewResult :=
  [{ reviewer_provider := "openai", target_provider := "anthropic",
     raw_text := "not json", parsed := none,
     parse_error := some "No JSON object found.", attempts := 2, error := none },
   { reviewer_provider := "anthropic", target_provider := "openai",
     raw_text := "not json", parsed := none,
     parse_error := some "No JSON object found.", attempts := 2, error := none }]

theorem C5_review_counts_witness :
    (¬ (stateW6.drafts = []) ∧
      (stateW6.plan.solvers.map (·.provider)).Nodup ∧
      generate_peer_reviews genW5 loadsW7 valRW7 stateW6 = .ok lW5) ∧
    (lW5.length = stateW6.plan.solvers.length *
        (stateW6.plan.solvers.length - 1) ∧
      ∀ r t : String, r ∈ stateW6.plan.solvers.map (·.provider) →
        t ∈ stateW6.plan.solvers.map (·.provider) → ¬ (r = t) →
        List.countP (fun res =>
          decide (res.reviewer_provider = r ∧ res.target_provider = t)) lW5 = 1) :=
  ⟨⟨by decide, by decide, by rfl⟩,
    C5_review_counts genW5 loadsW7 valRW7 stateW6 lW5
      (by decide) (by decide) (by rfl)⟩

-- Claim C2: spec-side score formula and bridges

/-- Modelled from the claim text: self(P) is confidence if the parsed
opinion prefers judge, 0.55 x confidence if it prefers solver, 0 without a
valid opinion. -/
def specSelf (opinions : List (String × RoleOpinionResult)) (p : String) : ℚ :=
  match (opinions.lookup p).bind (·.parsed) with
  | none => 0
  | some op =>
    (if op.self.preferred_role = Role.judge then 1 else 55/100) *
      op.self.confidence

/-- Modelled from the claim text: one nominator contribution of
0.70 x nominator confidence x nominator prior when the (stripped) nominated
provider is P. -/
def specNomContrib (opinions : List (String × RoleOpinionResult))
    (priorf : String → ℚ) (p : String) (m : ModelInfo) : ℚ :=
  match (opinions.lookup m.provider).bind (·.parsed) with
  | none => 0
  | some op =>
    if pyStrip op.recommended_judge.provider = p then
      70 / 100 * op.recommended_judge.confidence * priorf m.provider
    else 0

/-- Nominations summed over ALL roster members (what the source computes:
the amended claim). -/
def specNomsAll (roster : List ModelInfo)
    (opinions : List (String × RoleOpinionResult))
    (priorf : String → ℚ) (p : String) : ℚ :=
  (roster.map (specNomContrib opinions priorf p)).sum

/-- Nominations summed over the OTHER roster members only (the claim as
stated). -/
def specNomsOther (roster : List ModelInfo)
    (opinions : List (String × RoleOpinionResult))
    (priorf : String → ℚ) (p : String) : ℚ :=
  ((roster.filter (fun m => ¬ (m.provider = p))).map
    (specNomContrib opinions priorf p)).sum

/-- Score formula of the amended claim:
prior x (0.60 + 0.40 x self) + nominations over all members. -/
def specScoreAll (roster : List ModelInfo)
    (opinions : List (String × RoleOpinionResult))
    (prior : List (String × ℚ)) (p : String) : ℚ :=
  priorGet prior p * (60 / 100 + 40 / 100 * specSelf opinions p) +
    specNomsAll roster opinions (priorGet prior) p

/-- Score formula of the claim as stated (nominations exclude P itself). -/
def specScoreOther (roster : List ModelInfo)
    (opinions : List (String × RoleOpinionResult))
    (prior : List (String × ℚ)) (p : String) : ℚ :=
  priorGet prior p * (60 / 100 + 40 / 100 * specSelf opinions p) +
    specNomsOther roster opinions (priorGet prior) p

theorem filter_provider_eq_singleton (p : String) :
    ∀ l : List ModelInfo, (l.map (·.provider)).Nodup →
      p ∈ l.map (·.provider) →
      ∃ m, m ∈ l ∧ m.provider = p ∧
        l.filter (fun x => decide (x.provider = p)) = [m] := by
  intro l
  induction l with
  | nil =>
    intro _ h
    simp at h
  | cons m ms ih =>
    intro hnd hmem
    rw [List.map_cons, List.nodup_cons] at hnd
    rcases List.mem_cons.mp hmem with he | he
    · refine ⟨m, List.mem_cons_self _ _, he.symm, ?_⟩
      rw [List.filter_cons_of_pos (by simp [he.symm])]
      have hnil : ms.filter (fun x => decide (x.provider = p)) = [] := by
        rw [List.filter_eq_nil_iff]
        intro a ha hc
        simp only [decide_eq_true_eq] at hc
        apply hnd.1
        have h3 : a.provider ∈ ms.map (·.provider) :=
          List.mem_map_of_mem (·.provider) ha
        rw [hc, he] at h3
        exact h3
      rw [hnil]
    · have hne : ¬ (m.provider = p) := by
        intro he2
        apply hnd.1
        rw [← he2] at he
        exact he
      rcases ih hnd.2 he with ⟨j, hj1, hj2, hj3⟩
      refine ⟨j, List.mem_cons_of_mem _ hj1, hj2, ?_⟩
      rw [List.filter_cons_of_neg (by simp [hne]), hj3]

theorem selfComponent_eq (roster : List ModelInfo)
    (opinions : List (String × RoleOpinionResult)) (p : String)
    (hnd : (roster.map (·.provider)).Nodup) (hp : p ∈ roster.map (·.provider)) :
    selfComponent roster opinions p = specSelf opinions p := by
  rcases filter_provider_eq_singleton p roster hnd hp with ⟨m, _, _, hfil⟩
  unfold selfComponent specSelf
  rw [hfil]
  simp only [List.foldl_cons, List.foldl_nil]
  cases hop : (opinions.lookup p).bind (·.parsed) with
  | none => rfl
  | some op =>
    dsimp only
    rw [qadd_eq, qmul_eq, zero_add]
    by_cases hr : op.self.preferred_role = Role.judge
    · rw [if_pos hr, if_pos hr]
    · rw [if_neg hr, if_neg hr, qmk_eq]
      norm_num

theorem nomStep_eq (roster : List ModelInfo)
    (opinions : List (String × RoleOpinionResult))
    (prior : List (String × ℚ)) (p : String)
    (hp : (roster.map (·.provider)).contains p = true) :
    ∀ (acc : ℚ) (m : ModelInfo),
      nomStep roster opinions prior p acc m =
        acc + specNomContrib opinions (priorGet prior) p m := by
  intro acc m
  unfold nomStep specNomContrib
  cases hop : (opinions.lookup m.provider).bind (·.parsed) with
  | none => rw [add_zero]
  | some op =>
    dsimp only
    by_cases ht : pyStrip op.recommended_judge.provider = p
    · rw [if_pos ⟨ht, by rw [ht]; exact hp⟩, if_pos ht,
        qadd_eq, qmul_eq, qmul_eq]
      unfold NOMINATION_WEIGHT
      rw [qmk_eq]
      norm_num
    · rw [if_neg (fun hc => ht hc.1), if_neg ht, add_zero]

theorem nominationComponent_eq (roster : List ModelInfo)
    (opinions : List (String × RoleOpinionResult))
    (prior : List (String × ℚ)) (p : String)
    (hp : p ∈ roster.map (·.provider)) :
    nominationComponent roster opinions prior p =
      specNomsAll roster opinions (priorGet prior) p := by
  have hpc : (roster.map (·.provider)).contains p = true :=
    List.elem_iff.mpr hp
  have haux : ∀ (l : List ModelInfo) (acc : ℚ),
      l.foldl (nomStep roster opinions prior p) acc =
        acc + (l.map (specNomContrib opinions (priorGet prior) p)).sum := by
    intro l
    induction l with
    | nil =>
      intro acc
      simp
    | cons m ms ih =>
      intro acc
      rw [List.foldl_cons, ih, nomStep_eq roster opinions prior p hpc,
        List.map_cons, List.sum_cons, add_assoc]
  unfold nominationComponent specNomsAll
  rw [haux, zero_add]

theorem scoreOf_eq (roster : List ModelInfo)
    (opinions : List (String × RoleOpinionResult))
    (prior : List (String × ℚ)) (m : ModelInfo)
    (hnd : (roster.map (·.provider)).Nodup) (hm : m ∈ roster) :
    scoreOf roster opinions prior m =
      specScoreAll roster opinions prior m.provider := by
  have hp : m.provider ∈ roster.map (·.provider) :=
    List.mem_map_of_mem (·.provider) hm
  unfold scoreOf specScoreAll
  rw [qadd_eq, qmul_eq, qadd_eq, qmul_eq, qmk_eq, qmk_eq,
    selfComponent_eq roster opinions m.provider hnd hp,
    nominationComponent_eq roster opinions prior m.provider hp]
  norm_num

-- plan_roles structure lemmas

theorem lookup_map_self :
    ∀ (l : List ModelInfo) (k : String) (j : ModelInfo),
      (l.map (fun m => (m.provider, m))).lookup k = some j →
      j ∈ l ∧ j.provider = k := by
  intro l
  induction l with
  | nil =>
    intro k j h
    simp [List.lookup] at h
  | cons m ms ih =>
    intro k j h
    rw [List.map_cons, List.lookup] at h
    by_cases he : k = m.provider
    · rw [he, beq_self_eq_true] at h
      dsimp only at h
      have hj := (Option.some.injEq _ _).mp h
      rw [← hj]
      exact ⟨List.mem_cons_self _ _, he.symm⟩
    · rw [beq_eq_false_iff_ne.mpr he] at h
      dsimp only at h
      rcases ih k j h with ⟨h1, h2⟩
      exact ⟨List.mem_cons_of_mem _ h1, h2⟩

theorem lastLookup_map_self (l : List ModelInfo) (k : String) (j : ModelInfo)
    (h : lastLookup (l.map (fun m => (m.provider, m))) k = some j) :
    j ∈ l ∧ j.provider = k := by
  unfold lastLookup at h
  rw [← List.map_reverse] at h
  rcases lookup_map_self l.reverse k j h with ⟨h1, h2⟩
  exact ⟨List.mem_reverse.mp h1, h2⟩

theorem lookup_map_self_isSome :
    ∀ (l : List ModelInfo) (k : String), k ∈ l.map (·.provider) →
      ((l.map (fun m => (m.provider, m))).lookup k).isSome = true := by
  intro l
  induction l with
  | nil =>
    intro k h
    simp at h
  | cons m ms ih =>
    intro k h
    rw [List.map_cons, List.lookup]
    by_cases he : k = m.provider
    · rw [he, beq_self_eq_true]
      rfl
    · rcases List.mem_cons.mp h with h2 | h2
      · exact absurd h2 he
      · rw [beq_eq_false_iff_ne.mpr he]
        exact ih k h2

theorem lastLookup_map_self_isSome (l : List ModelInfo) (k : String)
    (h : k ∈ l.map (·.provider)) :
    (lastLookup (l.map (fun m => (m.provider, m))) k).isSome = true := by
  unfold lastLookup
  rw [← List.map_reverse]
  exact lookup_map_self_isSome l.reverse k
    (by rw [List.map_reverse, List.mem_reverse]; exact h)

/-- Structure of a successful plan_roles run: the judge is the pyMax of the
scored ordering, is a roster member, and the solvers are the roster filtered
on the judge provider. -/
theorem plan_roles_spec (roster : List ModelInfo)
    (opinions : List (String × RoleOpinionResult))
    (judge_prior : Option (List (String × ℚ))) (plan : SuggestedPlan)
    (hplan : plan_roles roster opinions judge_prior = some plan) :
    plan.judge ∈ roster ∧
      plan.solvers = roster.filter
        (fun m => decide (¬ (m.provider = plan.judge.provider))) ∧
      (∀ m ∈ roster, ¬ scoredLt roster opinions (resolvePrior judge_prior)
        (pyMax (scoredLt roster opinions (resolvePrior judge_prior))
          (roster.headI) roster.tail) m) ∧
      plan.judge.provider =
        (pyMax (scoredLt roster opinions (resolvePrior judge_prior))
          (roster.headI) roster.tail).provider := by
  unfold plan_roles at hplan
  cases roster with
  | nil => simp at hplan
  | cons m0 rest =>
    dsimp only at hplan
    cases hlk : lastLookup ((m0 :: rest).map (fun m => (m.provider, m)))
        (pyMax (scoredLt (m0 :: rest) opinions (resolvePrior judge_prior))
          m0 rest).provider with
    | none =>
      rw [hlk] at hplan
      simp at hplan
    | some judge =>
      rw [hlk] at hplan
      have hp := (Option.some.injEq _ _).mp hplan
      rcases lastLookup_map_self _ _ _ hlk with ⟨hmem, hprov⟩
      rw [← hp]
      refine ⟨hmem, ?_, ?_, ?_⟩
      · dsimp only
        rw [hprov]
      · intro m hm
        simp only [List.headI, List.tail_cons]
        exact pyMax_not_lt _ (scoredLt_asymm _ _ _) (scoredLt_cotrans _ _ _)
          m0 rest m hm
      · simpa using hprov

/-- C2 (amended): for every roster with distinct providers, every opinions
map and prior table, plan_roles picks as judge a roster member whose score
prior(P) x (0.60 + 0.40 x self(P)) + nominations(P) is maximal, where
nominations(P) sums 0.70 x confidence x nominator prior over ALL roster
members whose parsed opinion validly nominates P — including P itself, which
the claim as stated wrongly excludes — and the recorded score breakdown
carries exactly these components. -/
theorem C2_plan_roles_score (roster : List ModelInfo)
    (opinions : List (String × RoleOpinionResult))
    (judge_prior : Option (List (String × ℚ))) (plan : SuggestedPlan)
    (hnd : (roster.map (·.provider)).Nodup)
    (hplan : plan_roles roster opinions judge_prior = some plan) :
    plan.judge ∈ roster ∧
      (∀ m ∈ roster,
        specScoreAll roster opinions (resolvePrior judge_prior) m.provider ≤
          specScoreAll roster opinions (resolvePrior judge_prior)
            plan.judge.provider) := by
  rcases plan_roles_spec roster opinions judge_prior plan hplan with
    ⟨hmem, _, hmax, hprov⟩
  refine ⟨hmem, ?_⟩
  intro m hm
  have hM := pyMax_mem (scoredLt roster opinions (resolvePrior judge_prior))
    roster.headI roster.tail
  have hMr : pyMax (scoredLt roster opinions (resolvePrior judge_prior))
      roster.headI roster.tail ∈ roster := by
    cases roster with
    | nil => simp at hm
    | cons a l => simpa using hM
  have hnot := hmax m hm
  have hle : scoreOf roster opinions (resolvePrior judge_prior) m ≤
      scoreOf roster opinions (resolvePrior judge_prior)
        (pyMax (scoredLt roster opinions (resolvePrior judge_prior))
          roster.headI roster.tail) := by
    by_contra hlt
    exact hnot (Or.inl (lt_of_not_le hlt))
  rw [scoreOf_eq roster opinions (resolvePrior judge_prior) m hnd hm,
    scoreOf_eq roster opinions (resolvePrior judge_prior) _ hnd hMr] at hle
  rw [hprov]
  exact hle

-- Claim C2 witness and counterexample fixtures

/-- Placeholder plan for Option.getD. -/
def pdef : SuggestedPlan :=
  { judge := ⟨0, "", ""⟩, solvers := [], opinions := [], score_breakdown := [] }

/-- Two-member roster fixture. -/
def rosterW2 : List ModelInfo := [⟨1, "alpha", "m"⟩, ⟨2, "beta", "m"⟩]

/-- Opinion payload fixture: beta prefers judge and nominates itself. -/
def opW2 : RoleOpinion :=
  { self := { preferred_role := Role.judge, confidence := 1, reason := "r" },
    recommended_judge := { provider := "beta", confidence := 1, reason := "r" } }

/-- Opinion fixture: beta prefers judge and nominates itself. -/
def opsW2 : List (String × RoleOpinionResult) :=
  [("beta", { provider := "beta", model := "m", raw_text := "x",
              parsed := some opW2, parse_error := none })]

/-- The plan plan_roles produces on the witness fixture. -/
def planW2 : SuggestedPlan := (plan_roles rosterW2 opsW2 none).getD pdef

theorem C2_plan_roles_score_witness :
    ((rosterW2.map (·.provider)).Nodup ∧
      plan_roles rosterW2 opsW2 none = some planW2) ∧
    (planW2.judge ∈ rosterW2 ∧
      ∀ m ∈ rosterW2,
        specScoreAll rosterW2 opsW2 (resolvePrior none) m.provider ≤
          specScoreAll rosterW2 opsW2 (resolvePrior none)
            planW2.judge.provider) :=
  ⟨⟨by decide, by rfl⟩,
    C2_plan_roles_score rosterW2 opsW2 none planW2 (by decide) (by rfl)⟩

/-- Single-member roster whose only member nominates itself. -/
def rosterC2x : List ModelInfo := [⟨1, "a", "m"⟩]

/-- Opinion payload fixture: a prefers solver and nominates itself. -/
def opC2x : RoleOpinion :=
  { self := { preferred_role := Role.solver, confidence := 1, reason := "r" },
    recommended_judge := { provider := "a", confidence := 1, reason := "r" } }

/-- Opinion fixture: a prefers solver and nominates itself. -/
def opsC2x : List (String × RoleOpinionResult) :=
  [("a", { provider := "a", model := "m", raw_text := "x",
           parsed := some opC2x, parse_error := none })]

/-- C2 counterexample: on a roster whose only member nominates itself, the
source records a nominations component of 14/25 (0.70 x 1 x 0.80) in the
plan breakdown and scores the member accordingly, while the claim as stated
(nominations range over OTHER members only) yields a nominations sum of 0
and a strictly different score. -/
theorem C2_counterexample :
    (plan_roles rosterC2x opsC2x none).map
        (fun p => p.score_breakdown.lookup "a") =
      some (some { prior := qmk 4 5, selfScore := qmk 11 20,
                   nominations := qmk 14 25 }) ∧
    specNomsOther rosterC2x opsC2x (priorGet (resolvePrior none)) "a" = 0 ∧
    ¬ (qmk 14 25 = (0 : ℚ)) ∧
    ¬ (scoreOf rosterC2x opsC2x (resolvePrior none) ⟨1, "a", "m"⟩ =
        specScoreOther rosterC2x opsC2x (resolvePrior none) "a") := by
  refine ⟨by decide, by rfl, by decide, ?_⟩
  rw [scoreOf_eq rosterC2x opsC2x (resolvePrior none) ⟨1, "a", "m"⟩
    (by decide) (by decide)]
  unfold specScoreAll specScoreOther
  intro h
  have h2 := add_left_cancel h
  have h3 : specNomsAll rosterC2x opsC2x (priorGet (resolvePrior none)) "a" =
      70 / 100 * 1 * qmk 4 5 + 0 := rfl
  have h4 : specNomsOther rosterC2x opsC2x (priorGet (resolvePrior none)) "a" =
      0 := rfl
  rw [h3, h4, qmk_eq] at h2
  norm_num at h2

-- Claim C4

theorem filter_ne_split (p : String) :
    ∀ l : List ModelInfo, (l.map (·.provider)).Nodup →
      ∀ j, j ∈ l → j.provider = p →
      ∃ l1 l2, l = l1 ++ j :: l2 ∧
        l.filter (fun m => decide (¬ (m.provider = p))) = l1 ++ l2 := by
  intro l
  induction l with
  | nil =>
    intro _ j hj
    simp at hj
  | cons m ms ih =>
    intro hnd j hj hjp
    rw [List.map_cons, List.nodup_cons] at hnd
    rcases List.mem_cons.mp hj with he | he
    · subst he
      refine ⟨[], ms, by simp, ?_⟩
      rw [List.filter_cons_of_neg (by simp [hjp])]
      simp only [List.nil_append]
      rw [List.filter_eq_self]
      intro a ha
      simp only [decide_eq_true_eq]
      intro h2
      apply hnd.1
      have h3 : a.provider ∈ ms.map (·.provider) :=
        List.mem_map_of_mem (·.provider) ha
      rw [h2, ← hjp] at h3
      exact h3
    · have hne : ¬ (m.provider = p) := by
        intro he2
        apply hnd.1
        have h3 : j.provider ∈ ms.map (·.provider) :=
          List.mem_map_of_mem (·.provider) he
        rw [hjp, ← he2] at h3
        exact h3
      rcases ih hnd.2 j he hjp with ⟨l1, l2, hsplit, hfil⟩
      refine ⟨m :: l1, l2, by rw [List.cons_append, ← hsplit], ?_⟩
      rw [List.filter_cons_of_pos (by simp [hne]), hfil, List.cons_append]

theorem lookup_map_self_none :
    ∀ (l : List ModelInfo) (k : String), ¬ (k ∈ l.map (·.provider)) →
      (l.map (fun m => (m.provider, m))).lookup k = none := by
  intro l
  induction l with
  | nil =>
    intro k _
    rfl
  | cons m ms ih =>
    intro k h
    rw [List.map_cons, List.lookup]
    have hne : ¬ (k = m.provider) := by
      intro he
      apply h
      rw [List.map_cons, he]
      exact List.mem_cons_self _ _
    rw [beq_eq_false_iff_ne.mpr hne]
    exact ih k (fun h2 => h (by
      rw [List.map_cons]
      exact List.mem_cons_of_mem _ h2))

theorem lookup_map_self_none_last (l : List ModelInfo) (k : String)
    (h : ¬ (k ∈ l.map (·.provider))) :
    lastLookup (l.map (fun m => (m.provider, m))) k = none := by
  unfold lastLookup
  rw [← List.map_reverse]
  refine lookup_map_self_none l.reverse k (fun h2 => h ?_)
  rw [List.map_reverse] at h2
  exact List.mem_reverse.mp h2

/-- Nodup providers for the reconstructed roster of a plan produced by
plan_roles. -/
theorem plan_reconstructed_nodup (roster : List ModelInfo)
    (opinions : List (String × RoleOpinionResult))
    (judge_prior : Option (List (String × ℚ))) (plan : SuggestedPlan)
    (hnd : (roster.map (·.provider)).Nodup)
    (hplan : plan_roles roster opinions judge_prior = some plan) :
    ((plan.judge :: plan.solvers).map (·.provider)).Nodup := by
  rcases plan_roles_spec roster opinions judge_prior plan hplan with
    ⟨_, hsol, _, _⟩
  rw [List.map_cons, List.nodup_cons]
  constructor
  · intro hmem
    rcases List.mem_map.mp hmem with ⟨a, ha, hap⟩
    rw [hsol] at ha
    rcases List.mem_filter.mp ha with ⟨_, hpred⟩
    simp only [decide_eq_true_eq] at hpred
    exact hpred hap
  · rw [hsol]
    exact hnd.sublist
      (List.Sublist.map (fun m : ModelInfo => m.provider)
        (List.filter_sublist roster))

/-- C4 (amended): a plan produced by plan_roles satisfies judge not in
solvers, with the solvers being exactly the roster in original order with
the judge removed; apply_user_override keeps the plan unchanged for the
current judge provider, raises for an unknown provider, and for any other
roster provider produces a plan whose judge is not among its solvers and
whose solvers are the plan's reconstructed roster (previous judge first,
then previous solvers) with the new judge removed, in that order — which is
NOT in general the original roster order, as the counterexample shows. -/
theorem C4_plan_invariants (roster : List ModelInfo)
    (opinions : List (String × RoleOpinionResult))
    (judge_prior : Option (List (String × ℚ))) (plan : SuggestedPlan)
    (hnd : (roster.map (·.provider)).Nodup)
    (hplan : plan_roles roster opinions judge_prior = some plan) :
    (¬ (plan.judge ∈ plan.solvers) ∧
      ∃ l1 l2, roster = l1 ++ plan.judge :: l2 ∧ plan.solvers = l1 ++ l2) ∧
      apply_user_override plan plan.judge.provider = .ok plan ∧
      (∀ p : String, ¬ (p ∈ (plan.judge :: plan.solvers).map (·.provider)) →
        ∃ e, apply_user_override plan p = .error e) ∧
      (∀ p : String, p ∈ (plan.judge :: plan.solvers).map (·.provider) →
        ¬ (p = plan.judge.provider) →
        ∃ plan2, apply_user_override plan p = .ok plan2 ∧
          ¬ (plan2.judge ∈ plan2.solvers) ∧ plan2.judge.provider = p ∧
          ∃ l1 l2, plan.judge :: plan.solvers = l1 ++ plan2.judge :: l2 ∧
            plan2.solvers = l1 ++ l2) := by
  rcases plan_roles_spec roster opinions judge_prior plan hplan with
    ⟨hmem, hsol, _, _⟩
  have hrec := plan_reconstructed_nodup roster opinions judge_prior plan hnd hplan
  refine ⟨?_, ?_, ?_, ?_⟩
  · constructor
    · intro hin
      rw [hsol] at hin
      rcases List.mem_filter.mp hin with ⟨_, hpred⟩
      simp at hpred
    · rcases filter_ne_split plan.judge.provider roster hnd plan.judge hmem rfl
        with ⟨l1, l2, hsplit, hfil⟩
      exact ⟨l1, l2, hsplit, by rw [hsol, hfil]⟩
  · unfold apply_user_override
    rw [if_pos rfl]
  · intro p hp
    unfold apply_user_override
    rw [if_neg ?hne]
    case hne =>
      intro he
      apply hp
      rw [he, List.map_cons]
      exact List.mem_cons_self _ _
    dsimp only
    rw [lookup_map_self_none_last (plan.judge :: plan.solvers) p hp]
    exact ⟨_, rfl⟩
  · intro p hp hpj
    unfold apply_user_override
    rw [if_neg hpj]
    dsimp only
    cases hlk : lastLookup ((plan.judge :: plan.solvers).map
        (fun m => (m.provider, m))) p with
    | none =>
      have h0 := lastLookup_map_self_isSome (plan.judge :: plan.solvers) p hp
      rw [hlk] at h0
      simp at h0
    | some j =>
      dsimp only
      rcases lastLookup_map_self _ _ _ hlk with ⟨hjm, hjp⟩
      refine ⟨_, rfl, ?_, hjp, ?_⟩
      · intro hin
        rcases List.mem_filter.mp hin with ⟨_, hpred⟩
        rw [hjp] at hpred
        simp at hpred
      · exact filter_ne_split p (plan.judge :: plan.solvers) hrec j hjm hjp

-- Claim C4 witness and counterexample fixtures

/-- Three-member roster fixture. -/
def rosterC4 : List ModelInfo :=
  [⟨1, "a", "m"⟩, ⟨2, "b", "m"⟩, ⟨3, "c", "m"⟩]

/-- Prior table making b the planned judge. -/
def priorsC4 : Option (List (String × ℚ)) := some [("b", 1)]

/-- The plan plan_roles produces on the fixture: judge b, solvers [a, c]. -/
def planC4 : SuggestedPlan := (plan_roles rosterC4 [] priorsC4).getD pdef

/-- The plan after overriding the judge to c. -/
def planC4ov : SuggestedPlan :=
  ((apply_user_override planC4 "c").toOption).getD pdef

theorem C4_plan_invariants_witness :
    ((rosterC4.map (·.provider)).Nodup ∧
      plan_roles rosterC4 [] priorsC4 = some planC4) ∧
    ((¬ (planC4.judge ∈ planC4.solvers) ∧
        ∃ l1 l2, rosterC4 = l1 ++ planC4.judge :: l2 ∧
          planC4.solvers = l1 ++ l2) ∧
      apply_user_override planC4 planC4.judge.provider = .ok planC4 ∧
      (∀ p : String, ¬ (p ∈ (planC4.judge :: planC4.solvers).map (·.provider)) →
        ∃ e, apply_user_override planC4 p = .error e) ∧
      (∀ p : String, p ∈ (planC4.judge :: planC4.solvers).map (·.provider) →
        ¬ (p = planC4.judge.provider) →
        ∃ plan2, apply_user_override planC4 p = .ok plan2 ∧
          ¬ (plan2.judge ∈ plan2.solvers) ∧ plan2.judge.provider = p ∧
          ∃ l1 l2, planC4.judge :: planC4.solvers = l1 ++ plan2.judge :: l2 ∧
            plan2.solvers = l1 ++ l2)) :=
  ⟨⟨by decide, by rfl⟩,
    C4_plan_invariants rosterC4 [] priorsC4 planC4 (by decide) (by rfl)⟩

/-- C4 counterexample: after plan_roles picks judge b for roster [a, b, c],
overriding the judge to c yields solvers [b, a], while the original roster
order with c removed is [a, b]: the overridden plan does NOT preserve the
original roster order. -/
theorem C4_counterexample :
    apply_user_override planC4 "c" = .ok planC4ov ∧
      planC4ov.solvers.map (·.provider) = ["b", "a"] ∧
      (rosterC4.filter (fun m => decide (¬ (m.provider = "c")))).map (·.provider)
        = ["a", "b"] ∧
      ¬ (planC4ov.solvers.map (·.provider) =
          (rosterC4.filter (fun m => decide (¬ (m.provider = "c")))).map
            (·.provider)) :=
  ⟨by rfl, by decide, by decide, by decide⟩

-- Claims C1 and C10: the deterministic judge fallback

/-- Average parsed overall review score addressed to p (claim language). -/
def avgOverall (reviews : List ReviewResult) (sp : List String) (p : String) : ℚ :=
  sumOverall reviews sp p / ((cntReviews reviews sp p : ℚ))

theorem mem_fallbackScored (reviews : List ReviewResult) (sp : List String)
    (a : ℚ) (p : String) :
    (a, p) ∈ fallbackScored reviews sp ↔
      p ∈ sp ∧ 0 < cntReviews reviews sp p ∧
        a = qdivN (sumOverall reviews sp p) (cntReviews reviews sp p) := by
  unfold fallbackScored
  rw [List.mem_filterMap]
  constructor
  · rintro ⟨q, hq, he⟩
    dsimp only at he
    by_cases h0 : 0 < cntReviews reviews sp q
    · rw [if_pos h0] at he
      have h2 := (Option.some.injEq _ _).mp he
      have h3 := (Prod.mk.injEq _ _ _ _).mp h2
      rw [← h3.2]
      exact ⟨hq, h0, h3.1.symm⟩
    · rw [if_neg h0] at he
      simp at he
  · rintro ⟨h1, h2, h3⟩
    refine ⟨p, h1, ?_⟩
    dsimp only
    rw [if_pos h2, ← h3]

theorem fallbackScored_eq_nil (reviews : List ReviewResult) (sp : List String) :
    fallbackScored reviews sp = [] ↔
      ∀ q ∈ sp, cntReviews reviews sp q = 0 := by
  unfold fallbackScored
  rw [List.filterMap_eq_nil_iff]
  constructor
  · intro h q hq
    have h2 := h q hq
    dsimp only at h2
    by_cases h0 : 0 < cntReviews reviews sp q
    · rw [if_pos h0] at h2
      simp at h2
    · omega
  · intro h q hq
    dsimp only
    rw [if_neg (by rw [h q hq]; omega)]

/-- Behaviour of the deterministic fallback of judge_solutions, lines 549
to 560: it always selects a solver; the first solver in plan order exactly
when no solver has a parsed review; otherwise a reviewed solver whose
average parsed overall score is maximal. -/
theorem fallbackWinner_spec (reviews : List ReviewResult) (sp : List String)
    (hs : ¬ (sp = [])) :
    ∃ w, fallbackWinner reviews sp = some w ∧ w ∈ sp ∧
      ((∀ q ∈ sp, cntReviews reviews sp q = 0) → some w = sp.head?) ∧
      (∀ q ∈ sp, 0 < cntReviews reviews sp q →
        0 < cntReviews reviews sp w ∧
          avgOverall reviews sp q ≤ avgOverall reviews sp w) := by
  unfold fallbackWinner
  cases hsc : fallbackScored reviews sp with
  | nil =>
    cases hsp : sp with
    | nil => exact absurd hsp hs
    | cons p ps =>
      subst hsp
      refine ⟨p, rfl, List.mem_cons_self _ _, fun _ => rfl, ?_⟩
      intro q hq hcq
      exfalso
      have hmem : (qdivN (sumOverall reviews (p :: ps) q)
            (cntReviews reviews (p :: ps) q), q)
          ∈ fallbackScored reviews (p :: ps) :=
        (mem_fallbackScored reviews (p :: ps) _ q).mpr ⟨hq, hcq, rfl⟩
      rw [hsc] at hmem
      simp at hmem
  | cons s0 rest =>
    have hmax := pyMax_not_lt pairLt pairLt_asymm pairLt_cotrans s0 rest
    have hmem0 := pyMax_mem pairLt s0 rest
    rcases hMeq : pyMax pairLt s0 rest with ⟨a, w⟩
    rw [hMeq] at hmax hmem0
    have hMsc : ((a, w) : ℚ × String) ∈ fallbackScored reviews sp := by
      rw [hsc]
      exact hmem0
    rcases (mem_fallbackScored reviews sp a w).mp hMsc with ⟨hwsp, hwc, hav⟩
    refine ⟨w, by dsimp only; rw [hMeq], hwsp, ?_, ?_⟩
    · intro hz
      exfalso
      rw [hz w hwsp] at hwc
      omega
    · intro q hq hcq
      refine ⟨hwc, ?_⟩
      have hqs : (qdivN (sumOverall reviews sp q) (cntReviews reviews sp q), q)
          ∈ (s0 :: rest : List (ℚ × String)) := by
        rw [← hsc]
        exact (mem_fallbackScored reviews sp _ q).mpr ⟨hq, hcq, rfl⟩
      have hnot := hmax _ hqs
      have hle : qdivN (sumOverall reviews sp q) (cntReviews reviews sp q) ≤ a := by
        by_contra hlt
        exact hnot (Or.inl (lt_of_not_le hlt))
      rw [hav] at hle
      unfold avgOverall
      rw [← qdivN_eq, ← qdivN_eq]
      exact hle

/-- C1 (amended): winner selection in judge_solutions always produces a
winner whenever the solver list is non-empty and every solver provider has
an entry in the active solutions map (revisions when present, else drafts):
a parsed judge decision naming a solver provider is accepted as is, and
otherwise the deterministic fallback picks the first solver when no parsed
review exists and a solver with maximal average parsed overall score
otherwise. The claim as stated, quantified over every state with merely
non-empty drafts, is false: with drafts that do not cover the fallback
winner the source raises KeyError (see the counterexample). -/
theorem C1_winner_selection (gen : Nat → LLMReply) (loads : String → Option PyVal)
    (validate : PyVal → Except String JudgeDecisionJSON) (state : CouncilState)
    (hs : ¬ (state.plan.solvers = []))
    (hcov : ∀ p ∈ state.plan.solvers.map (·.provider),
      ((solutionsOf state).lookup p).isSome = true) :
    ∃ st', judge_solutions gen loads validate state = some st' ∧
      ∃ w, st'.winner_provider = some w ∧
        w ∈ state.plan.solvers.map (·.provider) ∧
        st'.winner_text = (solutionsOf state).lookup w ∧
        (∀ d, (judgeResultOf gen loads validate state.plan).parsed = some d →
          d.winner_provider ∈ state.plan.solvers.map (·.provider) →
          w = d.winner_provider) ∧
        (((judgeResultOf gen loads validate state.plan).parsed = none ∨
            (∀ d, (judgeResultOf gen loads validate state.plan).parsed = some d →
              ¬ (d.winner_provider ∈ state.plan.solvers.map (·.provider)))) →
          ((∀ q ∈ state.plan.solvers.map (·.provider),
              cntReviews state.reviews (state.plan.solvers.map (·.provider)) q = 0) →
            some w = (state.plan.solvers.map (·.provider)).head?) ∧
          (∀ q ∈ state.plan.solvers.map (·.provider),
            0 < cntReviews state.reviews (state.plan.solvers.map (·.provider)) q →
            avgOverall state.reviews (state.plan.solvers.map (·.provider)) q ≤
              avgOverall state.reviews (state.plan.solvers.map (·.provider)) w)) := by
  have hsp : ¬ (state.plan.solvers.map (·.provider) = []) := by
    intro h
    exact hs (List.map_eq_nil_iff.mp h)
  unfold judge_solutions
  dsimp only
  cases hj : (judgeResultOf gen loads validate state.plan).parsed with
  | some d =>
    dsimp only
    by_cases hcon : (state.plan.solvers.map (·.provider)).contains d.winner_provider = true
    · rw [if_pos hcon]
      have hdm : d.winner_provider ∈ state.plan.solvers.map (·.provider) :=
        List.elem_iff.mp hcon
      cases hlk : (solutionsOf state).lookup d.winner_provider with
      | none =>
        have h0 := hcov d.winner_provider hdm
        rw [hlk] at h0
        simp at h0
      | some txt =>
        refine ⟨_, rfl, d.winner_provider, rfl, hdm, by rw [hlk], ?_, ?_⟩
        · intro d2 hd2 _
          have hdd := (Option.some.injEq _ _).mp hd2
          rw [hdd]
        · intro hfb
          rcases hfb with hfb | hfb
          · simp at hfb
          · exact absurd hdm (hfb d rfl)
    · rw [if_neg hcon]
      rcases fallbackWinner_spec state.reviews (state.plan.solvers.map (·.provider))
        hsp with ⟨w, hfw, hwsp, hhead, hmaxp⟩
      rw [hfw]
      dsimp only
      cases hlk : (solutionsOf state).lookup w with
      | none =>
        have h0 := hcov w hwsp
        rw [hlk] at h0
        simp at h0
      | some txt =>
        refine ⟨_, rfl, w, rfl, hwsp, by rw [hlk], ?_, ?_⟩
        · intro d2 hd2 hd2m
          have hdd := (Option.some.injEq _ _).mp hd2
          rw [← hdd] at hd2m
          exact absurd (List.elem_iff.mpr hd2m) hcon
        · intro _
          exact ⟨hhead, fun q hq hcq => (hmaxp q hq hcq).2⟩
  | none =>
    dsimp only
    rcases fallbackWinner_spec state.reviews (state.plan.solvers.map (·.provider))
      hsp with ⟨w, hfw, hwsp, hhead, hmaxp⟩
    rw [hfw]
    dsimp only
    cases hlk : (solutionsOf state).lookup w with
    | none =>
      have h0 := hcov w hwsp
      rw [hlk] at h0
      simp at h0
    | some txt =>
      refine ⟨_, rfl, w, rfl, hwsp, by rw [hlk], ?_, ?_⟩
      · intro d2 hd2 _
        simp at hd2
      · intro _
        exact ⟨hhead, fun q hq hcq => (hmaxp q hq hcq).2⟩

/-- C10: in the deterministic fallback of judge_solutions (fallbackWinner,
lines 549 to 560), when at least one solver has a parsed review the winner
is a reviewed solver with maximal average parsed overall score, and among
solvers tied for that maximum it is the one with the lexicographically
greatest provider string; the first-solver rule applies only when no solver
has any parsed review (the scored list is empty). -/
theorem C10_fallback_tiebreak (reviews : List ReviewResult) (sp : List String)
    (w : String) (hw : fallbackWinner reviews sp = some w)
    (hne : ¬ (fallbackScored reviews sp = [])) :
    0 < cntReviews reviews sp w ∧ w ∈ sp ∧
      ∀ q ∈ sp, 0 < cntReviews reviews sp q → ¬ (q = w) →
        (avgOverall reviews sp q < avgOverall reviews sp w ∨
          (avgOverall reviews sp q = avgOverall reviews sp w ∧ q < w)) := by
  unfold fallbackWinner at hw
  cases hsc : fallbackScored reviews sp with
  | nil => exact absurd hsc hne
  | cons s0 rest =>
    rw [hsc] at hw
    dsimp only at hw
    have hmax := pyMax_not_lt pairLt pairLt_asymm pairLt_cotrans s0 rest
    have hmem0 := pyMax_mem pairLt s0 rest
    rcases hMeq : pyMax pairLt s0 rest with ⟨a, w0⟩
    rw [hMeq] at hmax hmem0 hw
    have hw0 : w0 = w := by simpa using hw
    subst hw0
    have hMsc : ((a, w0) : ℚ × String) ∈ fallbackScored reviews sp := by
      rw [hsc]
      exact hmem0
    rcases (mem_fallbackScored reviews sp a w0).mp hMsc with ⟨hwsp, hwc, hav⟩
    refine ⟨hwc, hwsp, ?_⟩
    intro q hq hcq hqw
    have hqs : (qdivN (sumOverall reviews sp q) (cntReviews reviews sp q), q)
        ∈ (s0 :: rest : List (ℚ × String)) := by
      rw [← hsc]
      exact (mem_fallbackScored reviews sp _ q).mpr ⟨hq, hcq, rfl⟩
    have hnot := hmax _ hqs
    unfold pairLt lexRel baseRel at hnot
    dsimp only at hnot
    push_neg at hnot
    rcases lt_trichotomy
        (qdivN (sumOverall reviews sp q) (cntReviews reviews sp q)) a with
      hlt | heq | hgt
    · left
      unfold avgOverall
      rw [← qdivN_eq, ← qdivN_eq, ← hav]
      exact hlt
    · right
      constructor
      · unfold avgOverall
        rw [← qdivN_eq, ← qdivN_eq, ← hav]
        exact heq
      · have hnlt : ¬ (w0.data < q.data) := not_lt.mpr (hnot.2 heq.symm)
        rcases lt_trichotomy q.data w0.data with h1 | h1 | h1
        · exact String.lt_iff_toList_lt.mpr h1
        · exact absurd (String.ext h1) hqw
        · exact absurd h1 hnlt
    · exact absurd hgt (not_lt.mpr hnot.1)

-- Claims C1 and C10: witnesses and counterexample

/-- Parsed review fixture: openai scored overall 9. -/
def prW1 : PeerReviewJSON :=
  { reviewer_provider := "anthropic", target_provider := "openai",
    correctness := 7, completeness := 7, clarity := 7, feasibility := 7,
    overall := 9, key_flaws := [], suggested_fixes := [], summary := "ok" }

/-- Review record fixture addressed to openai. -/
def reviewW1 : ReviewResult :=
  { reviewer_provider := "anthropic", target_provider := "openai",
    raw_text := "x", parsed := some prW1, parse_error := none,
    attempts := 1, error := none }

/-- State fixture: drafts for both solvers and one parsed review. -/
def stateW1 : CouncilState := { stateW6 with reviews := [reviewW1] }

theorem C1_winner_selection_witness :
    (¬ (stateW1.plan.solvers = []) ∧
      ∀ p ∈ stateW1.plan.solvers.map (·.provider),
        ((solutionsOf stateW1).lookup p).isSome = true) ∧
    (∃ st', judge_solutions genW7 loadsW7 valJW7 stateW1 = some st' ∧
      ∃ w, st'.winner_provider = some w ∧
        w ∈ stateW1.plan.solvers.map (·.provider) ∧
        st'.winner_text = (solutionsOf stateW1).lookup w ∧
        (∀ d, (judgeResultOf genW7 loadsW7 valJW7 stateW1.plan).parsed = some d →
          d.winner_provider ∈ stateW1.plan.solvers.map (·.provider) →
          w = d.winner_provider) ∧
        (((judgeResultOf genW7 loadsW7 valJW7 stateW1.plan).parsed = none ∨
            (∀ d, (judgeResultOf genW7 loadsW7 valJW7 stateW1.plan).parsed = some d →
              ¬ (d.winner_provider ∈ stateW1.plan.solvers.map (·.provider)))) →
          ((∀ q ∈ stateW1.plan.solvers.map (·.provider),
              cntReviews stateW1.reviews (stateW1.plan.solvers.map (·.provider)) q = 0) →
            some w = (stateW1.plan.solvers.map (·.provider)).head?) ∧
          (∀ q ∈ stateW1.plan.solvers.map (·.provider),
            0 < cntReviews stateW1.reviews (stateW1.plan.solvers.map (·.provider)) q →
            avgOverall stateW1.reviews (stateW1.plan.solvers.map (·.provider)) q ≤
              avgOverall stateW1.reviews (stateW1.plan.solvers.map (·.provider)) w))) :=
  ⟨⟨by decide, by decide⟩,
    C1_winner_selection genW7 loadsW7 valJW7 stateW1 (by decide) (by decide)⟩

/-- State fixture with NON-EMPTY drafts that do not cover the fallback
winner: plan solvers are openai and anthropic but only anthropic drafted. -/
def stateC1x : CouncilState :=
  { problem_statement := "p", plan := planW6,
    drafts := [("anthropic",
      { provider := "anthropic", model := "claude", text := "d" })] }

/-- C1 counterexample: a state with non-empty drafts on which
judge_solutions produces NO winner: the judge reply is unparsable, no
reviews exist, so the fallback picks the first solver (openai), whose
missing drafts entry raises KeyError (modelled as none). -/
theorem C1_counterexample :
    ¬ (stateC1x.drafts = []) ∧
      judge_solutions genW7 loadsW7 valJW7 stateC1x = none :=
  ⟨by decide, by rfl⟩

/-- Parsed review fixture for the tie: alpha scored overall 5. -/
def prW10a : PeerReviewJSON :=
  { reviewer_provider := "r", target_provider := "alpha",
    correctness := 5, completeness := 5, clarity := 5, feasibility := 5,
    overall := 5, key_flaws := [], suggested_fixes := [], summary := "ok" }

/-- Parsed review fixture for the tie: beta scored overall 5. -/
def prW10b : PeerReviewJSON :=
  { prW10a with target_provider := "beta" }

/-- Tied review list fixture. -/
def reviewsW10 : List ReviewResult :=
  [{ reviewer_provider := "r", target_provider := "alpha", raw_text := "x",
     parsed := some prW10a, parse_error := none, attempts := 1, error := none },
   { reviewer_provider := "r", target_provider := "beta", raw_text := "x",
     parsed := some prW10b, parse_error := none, attempts := 1, error := none }]

/-- Solver provider list fixture for the tie. -/
def spW10 : List String := ["alpha", "beta"]

theorem C10_fallback_tiebreak_witness :
    (fallbackWinner reviewsW10 spW10 = some "beta" ∧
      ¬ (fallbackScored reviewsW10 spW10 = [])) ∧
    (0 < cntReviews reviewsW10 spW10 "beta" ∧ "beta" ∈ spW10 ∧
      ∀ q ∈ spW10, 0 < cntReviews reviewsW10 spW10 q → ¬ (q = "beta") →
        (avgOverall reviewsW10 spW10 q < avgOverall reviewsW10 spW10 "beta" ∨
          (avgOverall reviewsW10 spW10 q = avgOverall reviewsW10 spW10 "beta" ∧
            q < "beta"))) :=
  ⟨⟨by rfl, by decide⟩,
    C10_fallback_tiebreak reviewsW10 spW10 "beta" (by rfl) (by decide)⟩

end Council
